import Mathlib

/-!
Verification development for the scoop blog-automation pipeline.

Shallow embedding of the content-generation core: template prediction,
engagement scoring, JSON repair, content parsing, HTML rendering, topic
selection with freshness detection, and the LLM chat adapter's cache.
Each definition is translated from the corresponding Python function in
the repository (file and line references are given in the doc comments).
-/

namespace Scoop

/-! ## Basic string helpers (Python semantics) -/

/-- Python `str.lower()` restricted to ASCII case mapping.  All keyword
inputs in the claims are ASCII (the one non-ASCII literal in the source,
the word for a coffee shop, is already lower case). -/
def pyLower (s : String) : String :=
  String.mk (s.toList.map Char.toLower)

/-- Python substring membership `needle in hay` on lists of characters. -/
def listContains (hay needle : List Char) : Bool :=
  match hay with
  | [] => needle.isEmpty
  | _ :: t => needle.isPrefixOf hay || listContains t needle

/-- Python substring membership `needle in hay` for strings. -/
def strIn (needle hay : String) : Bool :=
  listContains hay.toList needle.toList

/-- Python `str.startswith`. -/
def pyStartsWith (s p : String) : Bool :=
  p.toList.isPrefixOf s.toList

/-! ## Template prediction (src/blog/tasks.py lines 556-592) -/

/-- Embedding of `predict_template_type(keyword)` from src/blog/tasks.py
lines 556-592.  The rule order is exactly the source's chain of `if`
statements; every marker test is a Python substring test (`in`) except
the leading `keyword.startswith('how to')`. -/
def predict_template_type (keyword : String) : String :=
  let k := pyLower keyword
  if pyStartsWith k "how to" || strIn "step by step" k || strIn "guide" k
      || strIn "tutorial" k then
    "how_to"
  else if strIn "vs" k || strIn "versus" k || strIn "comparison" k
      || strIn "compared" k then
    "comparison"
  else if ([ "near me", "local", "city", "state", "region", "country",
        "restaurant", "café", "store", "shop"].any (fun w => strIn w k))
      || strIn "best places" k || strIn "things to do in" k
      || ([ "new york", "chicago", "london", "tokyo", "paris", "berlin",
        "sydney"].any (fun c => strIn c (pyLower k))) then
    "local"
  else if strIn "best" k || strIn "top" k || strIn "review" k
      || strIn "ranking" k then
    "comparison"
  else if [ "breaking", "news", "announced", "launches", "update",
      "released", "latest"].any (fun w => strIn w k) then
    "trend"
  else if [ "what is", "guide to", "understanding", "complete",
      "ultimate"].any (fun w => strIn w k) then
    "evergreen"
  else
    "how_to"

/-! ## Engagement scoring (src/blog/tasks.py lines 439-534) -/

/-- Embedding of `calculate_engagement_potential(keyword)` from
src/blog/tasks.py lines 439-484, as a function of the two aggregated
database statistics it branches on: the average historical `view_count`
and the average `avg_time_on_page` of posts sharing the keyword's first
token (both `Avg(...) or 0`, modelled as rationals). -/
def calculate_engagement_potential (avg_views avg_time : ℚ) : ℚ :=
  let base_score : ℚ := 60
  let engagement_score := base_score
  let engagement_score :=
    if avg_views > 1000 then engagement_score + 20
    else if avg_views > 500 then engagement_score + 10
    else if avg_views > 100 then engagement_score + 5
    else engagement_score
  let engagement_score :=
    if avg_time > 120 then engagement_score + 20
    else if avg_time > 60 then engagement_score + 10
    else engagement_score
  min (max engagement_score 0) 100

/-- Embedding of the per-topic score computed inside
`select_best_trending_topic` (src/blog/tasks.py lines 511-524): the
clamped engagement potential plus the normalized search-volume factor
(at most 20) and the normalized increase-percentage factor (at most 20).
Note the source adds the two factors after the `[0, 100]` clamp and
performs no further clamping. -/
def select_topic_engagement_score
    (avg_views avg_time search_volume increase_percentage : ℚ) : ℚ :=
  let engagement_score := calculate_engagement_potential avg_views avg_time
  let engagement_score :=
    if search_volume > 0 then
      engagement_score + min (search_volume / 10000) 1 * 20
    else engagement_score
  let engagement_score :=
    if increase_percentage > 0 then
      engagement_score + min (increase_percentage / 500) 1 * 20
    else engagement_score
  engagement_score

/-- View-count tier bonus of `calculate_engagement_potential` in addend
form (src/blog/tasks.py lines 468-473). -/
def views_bonus (v : ℚ) : ℚ :=
  if v > 1000 then 20 else if v > 500 then 10 else if v > 100 then 5 else 0

/-- Time-on-page tier bonus of `calculate_engagement_potential` in
addend form (src/blog/tasks.py lines 475-478). -/
def time_bonus (t : ℚ) : ℚ :=
  if t > 120 then 20 else if t > 60 then 10 else 0

/-! ## Template validation in the parse / generate chain
(src/blog/tasks.py lines 596-655 and 897-939) -/

/-- The allowed template enum checked in `generate_blog_for_topic`
(src/blog/tasks.py line 606). -/
def allowed_templates : List String :=
  [ "evergreen", "trend", "comparison", "local", "how_to"]

/-- The (legacy) allowed template enum checked in `parse_json_content`
(src/blog/tasks.py line 916). -/
def parse_allowed_templates : List String :=
  [ "how_to", "listicle", "news", "review", "opinion"]

/-- The `template_type` value held by the dictionary returned from
`parse_json_content` (src/blog/tasks.py lines 915-923), as a function of
the `template_type` field of the parsed JSON object (`none` when the
field is absent) and the caller-supplied `template_type` argument. -/
def parse_json_content_template (suggested : Option String)
    (template_type : String) : String :=
  match suggested with
  | some s => if s ∈ parse_allowed_templates then s else template_type
  | none => template_type

/-- The `used_template_type` computed by `generate_blog_for_topic`
(src/blog/tasks.py lines 605-654) as a function of the `template_type`
field suggested by the parsed content object and the caller-supplied
`template_type` argument: the caller value is first normalized to the
allowed enum (lines 606-609, defaulting to how_to), the parsed object's
field passes through `parse_json_content` (line 637), and the result is
re-checked against the allowed enum (lines 643-654). -/
def generate_blog_used_template (suggested : Option String)
    (caller : String) : String :=
  let template_type :=
    if caller ∈ allowed_templates then caller else "how_to"
  let data_template := parse_json_content_template suggested template_type
  if data_template ∈ allowed_templates then data_template else template_type

/-! ## HTML renderer (src/blog/tasks.py lines 942-1286) -/

/-- Python's `s.encode('utf-8', 'ignore').decode('utf-8')`, applied
defensively to every free-text value in the renderer.  On text made of
Unicode scalar values this round trip is the identity (the `ignore`
handler only drops lone surrogates, which Lean's `Char` cannot
represent), so the model is the identity function; it is kept as a named
definition to mark each call site of the source. -/
def encode_utf8_ignore_decode (s : String) : String := s

/-- Python `str.replace` for a single-character pattern: every
occurrence of `c` is replaced by `r`. -/
def py_replace_char (s : List Char) (c : Char) (r : List Char) : List Char :=
  match s with
  | [] => []
  | a :: t => (if a = c then r else [a]) ++ py_replace_char t c r

/-- Anchor derivation used for the evergreen table of contents and
section headings (src/blog/tasks.py lines 978 and 1065):
`text.lower().replace(' ', '-').replace(',', '').replace('.', '')`. -/
def anchor_of (s : String) : String :=
  String.mk
    (py_replace_char
      (py_replace_char (py_replace_char (pyLower s).toList ' ' [ '-']) ',' [])
      '.' [])

/-- Image dictionary accessed by `add_section_image` and the placement
logic (keys `alt_text`, `search_terms`, `placement`; `none` models an
absent key). -/
structure ImageData where
  alt_text : Option String
  search_terms : Option String
  placement : Option String

/-- Featured-image dictionary (keys `alt_text`, `search_terms`). -/
structure FeaturedImage where
  alt_text : Option String
  search_terms : Option String

/-- Comparison-table dictionary (keys `headers`, `rows`; a missing key
is modelled as the empty list, matching `.get(_, [])`). -/
structure ComparisonTable where
  headers : List String
  rows : List (List String)

/-- Local-info dictionary (keys `location`, `description`). -/
structure LocalInfo where
  location : Option String
  description : Option String

/-- FAQ entry dictionary (keys `question`, `answer`). -/
structure FaqItem where
  question : Option String
  answer : Option String

/-- Call-to-action dictionary (keys `text`, `url`). -/
structure CallToAction where
  text : Option String
  url : Option String

/-- Subsection dictionary as accessed by the renderer (keys `h3`,
`content`, `image`, `list_items`).  The renderer never reads a key named
`heading`; the field is included so that content conforming to the
declared schema (heading, content, list items) can be expressed, and an
absent `list_items` key is conflated with an empty list (the source
guards with `'list_items' in subsection and subsection['list_items']`,
so both behave identically). -/
structure SubsectionData where
  heading : Option String
  h3 : Option String
  content : Option String
  image : Option ImageData
  list_items : List String

/-- Section dictionary as accessed by the renderer (keys `type`, `h1`,
`h2`, `content`, `image`, `subsections`).  `ty` models the key `type`.
The renderer never reads a key named `heading`; the field is included so
schema-conformant content can be expressed. -/
structure SectionData where
  ty : Option String
  heading : Option String
  h1 : Option String
  h2 : Option String
  content : Option String
  image : Option ImageData
  subsections : List SubsectionData

/-- Content dictionary as accessed by `format_json_to_html`.  Optional
dictionary-valued keys are modelled with `Option` where `none` covers an
absent key (and, for `featured_image` whose source guard also tests
truthiness, a present-but-empty dictionary); `faq` conflates an absent
key with the empty list, as the source guard
`'faq' in content_data and content_data['faq']` treats both alike. -/
structure ContentData where
  title : Option String
  featured_image : Option FeaturedImage
  table_of_contents : List String
  prerequisites : Option (List String)
  comparison_table : Option ComparisonTable
  local_info : Option LocalInfo
  sections : List SectionData
  faq : List FaqItem
  call_to_action : Option CallToAction

/-- The constant CSS stylesheet appended unconditionally at the end of
`format_json_to_html` (src/blog/tasks.py lines 1139-1263). -/
def style_block : String := "\n<style>\n.float-left \x7b\n    float: left;\n    margin-right: 1.5rem;\n    margin-bottom: 1rem;\n    max-width: 40%;\n\x7d\n.float-right \x7b\n    float: right;\n    margin-left: 1.5rem;\n    margin-bottom: 1rem;\n    max-width: 40%;\n\x7d\n.mx-auto \x7b\n    margin-left: auto;\n    margin-right: auto;\n\x7d\n.my-4 \x7b\n    margin-top: 1rem;\n    margin-bottom: 1rem;\n\x7d\n.block \x7b\n    display: block;\n\x7d\n.featured-image-container \x7b\n    margin-bottom: 2rem;\n    text-align: center;\n\x7d\n.featured-image-container img \x7b\n    max-width: 100%;\n    height: auto;\n    border-radius: 0.5rem;\n    box-shadow: 0 4px 6px -1px rgba(0, 0, 0, 0.1), 0 2px 4px -1px rgba(0, 0, 0, 0.06);\n\x7d\n.unsplash-image \x7b\n    min-height: 200px;\n    background-color: #f3f4f6;\n    border: 1px solid #e5e7eb;\n    display: block;\n\x7d\n.table-of-contents-container \x7b\n    background-color: #f9f9f9;\n    padding: 1.5rem;\n    margin-bottom: 2rem;\n    border-radius: 0.5rem;\n    border: 1px solid #e5e7eb;\n\x7d\n.table-of-contents \x7b\n    list-style-type: none;\n    padding-left: 1rem;\n\x7d\n.table-of-contents li \x7b\n    margin-bottom: 0.5rem;\n\x7d\n.table-of-contents a \x7b\n    text-decoration: none;\n    color: #4f46e5;\n\x7d\n.table-of-contents a:hover \x7b\n    text-decoration: underline;\n\x7d\n.comparison-table-container \x7b\n    margin: 2rem 0;\n    overflow-x: auto;\n\x7d\n.comparison-table \x7b\n    width: 100%;\n    border-collapse: collapse;\n    margin: 1.5rem 0;\n\x7d\n.comparison-table th, .comparison-table td \x7b\n    border: 1px solid #e5e7eb;\n    padding: 0.75rem;\n    text-align: left;\n\x7d\n.comparison-table th \x7b\n    background-color: #f3f4f6;\n    font-weight: bold;\n\x7d\n.local-info-container \x7b\n    background-color: #f0f7ff;\n    padding: 1.5rem;\n    margin-bottom: 2rem;\n    border-radius: 0.5rem;\n    border: 1px solid #cce5ff;\n\x7d\n.prerequisites-container \x7b\n    background-color: #f7f7f7;\n    padding: 1.5rem;\n    margin-bottom: 2rem;\n    border-radius: 0.5rem;\n    border: 1px solid #e5e7eb;\n\x7d\n.faq-section \x7b\n    margin-top: 2rem;\n\x7d\n.faq-item \x7b\n    margin-bottom: 1.5rem;\n    padding-bottom: 1.5rem;\n    border-bottom: 1px solid #e5e7eb;\n\x7d\n.faq-item h3 \x7b\n    font-weight: bold;\n    margin-bottom: 0.75rem;\n\x7d\n.call-to-action-container \x7b\n    margin: 2rem 0;\n    text-align: center;\n\x7d\n.cta-button \x7b\n    display: inline-block;\n    padding: 0.75rem 1.5rem;\n    background-color: #4f46e5;\n    color: white;\n    font-weight: bold;\n    border-radius: 0.375rem;\n    text-decoration: none;\n    transition: background-color 0.2s;\n\x7d\n.cta-button:hover \x7b\n    background-color: #4338ca;\n\x7d\n</style>\n"

/-- Embedding of `add_section_image(html, image_data, css_classes)` from
src/blog/tasks.py lines 1271-1286 (the source's `css_classes` default of
the empty string is passed explicitly at the two call sites that omit
it). -/
def add_section_image (html : String) (image_data : ImageData)
    (css_classes : String) : String :=
  let alt_text := encode_utf8_ignore_decode (image_data.alt_text.getD "")
  let search_terms :=
    encode_utf8_ignore_decode (image_data.search_terms.getD "")
  let image_html := "<div class=\"section-image-container\">\n"
  let image_html := image_html ++ "  <img class=\"unsplash-image " ++
    css_classes ++ "\" data-search-terms=\"" ++ search_terms ++
    "\" alt=\"" ++ alt_text ++ "\" data-placeholder=\"section\" />\n"
  let image_html := image_html ++ "  <noscript>Image: " ++ alt_text ++
    "</noscript>\n"
  let image_html := image_html ++ "</div>\n\n"
  html ++ image_html

/-- The image-placement dispatch shared by regular sections and
subsections (src/blog/tasks.py lines 1071-1078 and 1095-1102). -/
def add_placed_section_image (html : String) (img : ImageData) : String :=
  let placement := img.placement.getD "center"
  if placement = "left" then
    add_section_image html img "float-left mr-4 mb-4"
  else if placement = "right" then
    add_section_image html img "float-right ml-4 mb-4"
  else
    add_section_image html img "mx-auto my-4 block"

/-- Rendering of one subsection inside a regular section
(src/blog/tasks.py lines 1085-1110). -/
def render_subsection (html : String) (subsection : SubsectionData) :
    String :=
  let html := match subsection.h3 with
    | some h3v => html ++ "<h3>" ++ encode_utf8_ignore_decode h3v ++
        "</h3>\n"
    | none => html
  let html := match subsection.content with
    | some c => html ++ "<p>" ++ encode_utf8_ignore_decode c ++ "</p>\n\n"
    | none => html
  let html := match subsection.image with
    | some img => add_placed_section_image html img
    | none => html
  if subsection.list_items.isEmpty then html
  else
    html ++ "<ul>\n" ++
      String.join (subsection.list_items.map (fun item =>
        "<li>" ++ encode_utf8_ignore_decode item ++ "</li>\n")) ++
      "</ul>\n\n"

/-- Rendering of one section (src/blog/tasks.py lines 1033-1110);
`content_title` is `content_data.get('title', '')`, used by the
introduction branch's `h1` comparison. -/
def render_section (content_title : String) (template_type : String)
    (html : String) (s : SectionData) : String :=
  let section_type := s.ty.getD ""
  if section_type = "introduction" then
    let html := match s.h1 with
      | some h1v =>
          if h1v ≠ content_title then
            html ++ "<h2>" ++ encode_utf8_ignore_decode h1v ++ "</h2>\n"
          else html
      | none => html
    let html := html ++ "<p>" ++
      encode_utf8_ignore_decode (s.content.getD "") ++ "</p>\n\n"
    match s.image with
    | some img => add_section_image html img ""
    | none => html
  else if section_type = "conclusion" then
    let html := html ++ "<h2>" ++
      encode_utf8_ignore_decode (s.h2.getD "Conclusion") ++ "</h2>\n"
    let html := html ++ "<p>" ++
      encode_utf8_ignore_decode (s.content.getD "") ++ "</p>\n\n"
    match s.image with
    | some img => add_section_image html img ""
    | none => html
  else
    let html := match s.h2 with
      | some h2v =>
          let h2e := encode_utf8_ignore_decode h2v
          if template_type = "evergreen" then
            html ++ "<h2 id=\"" ++ anchor_of h2e ++ "\">" ++ h2e ++
              "</h2>\n"
          else
            html ++ "<h2>" ++ h2e ++ "</h2>\n"
      | none => html
    let html := match s.image with
      | some img => add_placed_section_image html img
      | none => html
    let html := match s.content with
      | some c => html ++ "<p>" ++ encode_utf8_ignore_decode c ++
          "</p>\n\n"
      | none => html
    s.subsections.foldl render_subsection html

/-- Embedding of `format_json_to_html(content_data, template_type)` from
src/blog/tasks.py lines 942-1268.  The source's enclosing
`try/except`-returns-empty-string wrapper is unreachable in this typed
model (every operation is total), so the body is embedded directly. -/
def format_json_to_html (content_data : ContentData)
    (template_type : String) : String :=
  let html := ""
  let title := encode_utf8_ignore_decode (content_data.title.getD "")
  let html := html ++ "<h1>" ++ title ++ "</h1>\n\n"
  let html := match content_data.featured_image with
    | some featured_image =>
        let alt_text :=
          encode_utf8_ignore_decode (featured_image.alt_text.getD title)
        let search_terms :=
          encode_utf8_ignore_decode
            (featured_image.search_terms.getD title)
        html ++ "<div class=\"featured-image-container\">\n" ++
          "  <img class=\"unsplash-image\" data-search-terms=\"" ++
          search_terms ++ "\" alt=\"" ++ alt_text ++
          "\" data-placeholder=\"featured\" />\n" ++
          "  <noscript>Featured image: " ++ alt_text ++
          "</noscript>\n" ++ "</div>\n\n"
    | none => html
  let html :=
    if template_type = "evergreen" then
      if content_data.table_of_contents.isEmpty then html
      else
        html ++ "<div class=\"table-of-contents-container\">\n" ++
          "<h2>Table of Contents</h2>\n" ++
          "<ul class=\"table-of-contents\">\n" ++
          String.join (content_data.table_of_contents.map (fun item =>
            let item_text := encode_utf8_ignore_decode item
            "<li><a href=\"#" ++ anchor_of item_text ++ "\">" ++
              item_text ++ "</a></li>\n")) ++
          "</ul>\n" ++ "</div>\n\n"
    else if template_type = "how_to" then
      match content_data.prerequisites with
      | some prereqs =>
          html ++ "<div class=\"prerequisites-container\">\n" ++
            "<h2>What You\x27ll Need</h2>\n" ++
            "<ul class=\"prerequisites-list\">\n" ++
            String.join (prereqs.map (fun item =>
              "<li>" ++ encode_utf8_ignore_decode item ++ "</li>\n")) ++
            "</ul>\n" ++ "</div>\n\n"
      | none => html
    else if template_type = "comparison" then
      match content_data.comparison_table with
      | some ct =>
          html ++ "<div class=\"comparison-table-container\">\n" ++
            "<h2>Comparison At A Glance</h2>\n" ++
            "<table class=\"comparison-table\">\n" ++ "<thead><tr>\n" ++
            String.join (ct.headers.map (fun header =>
              "<th>" ++ encode_utf8_ignore_decode header ++ "</th>\n")) ++
            "</tr></thead>\n" ++ "<tbody>\n" ++
            String.join (ct.rows.map (fun row =>
              "<tr>\n" ++
                String.join (row.map (fun cell =>
                  "<td>" ++ encode_utf8_ignore_decode cell ++
                    "</td>\n")) ++ "</tr>\n")) ++
            "</tbody>\n" ++ "</table>\n" ++ "</div>\n\n"
      | none => html
    else if template_type = "local" then
      match content_data.local_info with
      | some local_info =>
          html ++ "<div class=\"local-info-container\">\n" ++
            "<h2>Local Information: " ++ local_info.location.getD "" ++
            "</h2>\n" ++ "<div class=\"local-info-content\">\n" ++
            "<p>" ++ local_info.description.getD "" ++ "</p>\n" ++
            "</div>\n" ++ "</div>\n\n"
      | none => html
    else html
  let html := content_data.sections.foldl
    (render_section (content_data.title.getD "") template_type) html
  let html :=
    if content_data.faq.isEmpty then html
    else
      html ++ "<h2>Frequently Asked Questions</h2>\n" ++
        "<div class=\x27faq-section\x27>\n" ++
        String.join (content_data.faq.map (fun qa =>
          let question := encode_utf8_ignore_decode (qa.question.getD "")
          let answer := encode_utf8_ignore_decode (qa.answer.getD "")
          "<div class=\x27faq-item\x27>\n" ++ "<h3>" ++ question ++
            "</h3>\n" ++ "<p>" ++ answer ++ "</p>\n" ++ "</div>\n\n")) ++
        "</div>\n"
  let html := match content_data.call_to_action with
    | some cta =>
        let cta_text := encode_utf8_ignore_decode (cta.text.getD "Learn More")
        let cta_url := encode_utf8_ignore_decode (cta.url.getD "#")
        html ++ "<div class=\"call-to-action-container\">\n" ++
          "<a href=\"" ++ cta_url ++ "\" class=\"cta-button\">" ++
          cta_text ++ "</a>\n" ++ "</div>\n\n"
    | none => html
  html ++ style_block

/-! ## JSON values and serialization (model of Python `json.dumps`) -/

/-- JSON values, as produced by `json.dumps`-serializable Python data
(dictionaries keep insertion order). -/
inductive Json where
  | null
  | bool (b : Bool)
  | num (n : Int)
  | str (s : String)
  | arr (items : List Json)
  | obj (members : List (String × Json))
deriving Repr

/-- Hexadecimal digit characters (lower case, as emitted by Python's
`'\\u%04x'` formatting). -/
def hexDigit (n : Nat) : Char :=
  if n < 10 then Char.ofNat (48 + n) else Char.ofNat (87 + n)

/-- Decimal digits of a natural number, no leading zeros. -/
def natChars (n : Nat) : List Char :=
  if h : n < 10 then [Char.ofNat (48 + n)]
  else natChars (n / 10) ++ [Char.ofNat (48 + n % 10)]
decreasing_by
  exact Nat.div_lt_self (by omega) (by omega)

/-- Decimal representation of an integer (`int.__repr__`, used by
`json.dumps` for numbers). -/
def intChars (n : Int) : List Char :=
  if n < 0 then '-' :: natChars n.natAbs else natChars n.natAbs

/-- The escape of one character in a Python `json.dumps` string with the
default `ensure_ascii=True`: the two-character escapes for quote,
backslash and the common control characters, `\\u00xx` for the other
control characters, the character itself for printable ASCII, and
`\\uxxxx` (with a surrogate pair beyond the basic plane) for everything
non-ASCII. -/
def escChar (c : Char) : List Char :=
  if c = '"' then [ '\\', '"']
  else if c = '\\' then [ '\\', '\\']
  else if c = '\n' then [ '\\', 'n']
  else if c = '\r' then [ '\\', 'r']
  else if c = '\t' then [ '\\', 't']
  else if c.toNat = 8 then [ '\\', 'b']
  else if c.toNat = 12 then [ '\\', 'f']
  else if c.toNat < 32 then
    [ '\\', 'u', '0', '0', hexDigit (c.toNat / 16), hexDigit (c.toNat % 16)]
  else if c.toNat < 127 then [c]
  else if c.toNat < 65536 then
    [ '\\', 'u', hexDigit (c.toNat / 4096), hexDigit (c.toNat / 256 % 16),
      hexDigit (c.toNat / 16 % 16), hexDigit (c.toNat % 16)]
  else
    let n := c.toNat - 65536
    let hi := 55296 + n / 1024
    let lo := 56320 + n % 1024
    [ '\\', 'u', hexDigit (hi / 4096), hexDigit (hi / 256 % 16),
      hexDigit (hi / 16 % 16), hexDigit (hi % 16),
      '\\', 'u', hexDigit (lo / 4096), hexDigit (lo / 256 % 16),
      hexDigit (lo / 16 % 16), hexDigit (lo % 16)]

/-- Characters of a serialized JSON string literal, quotes included. -/
def strChars (s : String) : List Char :=
  '"' :: (s.toList.map escChar).flatten ++ [ '"']

mutual

/-- Characters of `json.dumps(v)` with the default separators
(`', '` between items, `': '` after keys, no padding inside braces). -/
def dumpChars : Json → List Char
  | .bool b => if b then "true".toList else "false".toList
  | .null => "null".toList
  | .num n => intChars n
  | .str s => strChars s
  | .arr items => '[' :: dumpItems items ++ [ ']']
  | .obj members => '\x7b' :: dumpMembers members ++ [ '\x7d']

/-- Item list serialization (separator `', '`). -/
def dumpItems : List Json → List Char
  | [] => []
  | [x] => dumpChars x
  | x :: y :: t => dumpChars x ++ ',' :: ' ' :: dumpItems (y :: t)

/-- Member list serialization (separators `', '` and `': '`). -/
def dumpMembers : List (String × Json) → List Char
  | [] => []
  | [(key, v)] => strChars key ++ ':' :: ' ' :: dumpChars v
  | (key, v) :: m :: t =>
      strChars key ++ ':' :: ' ' :: dumpChars v ++ ',' :: ' ' ::
        dumpMembers (m :: t)

end

/-- `json.dumps(v)` as a string. -/
def json_dumps (v : Json) : String := String.mk (dumpChars v)

/-! ## Model of `json.loads` acceptance (a validator implementing the
CPython `json` grammar: values, objects, arrays, strict strings, the
number regular expression, the `NaN`/`Infinity` constants, and JSON
whitespace). -/

/-- JSON whitespace (the scanner's `' \t\n\r'`). -/
def js_ws (c : Char) : Bool :=
  c = ' ' || c = '\t' || c = '\n' || c = '\r'

/-- Python `str.isspace`-style whitespace for the `re` patterns `\s`
(ASCII part; the modelled inputs contain no exotic Unicode spaces). -/
def py_isspace (c : Char) : Bool :=
  c = ' ' || c = '\t' || c = '\n' || c = '\r' || c.val = 11 || c.val = 12

/-- Drop leading JSON whitespace. -/
def skipWs : List Char → List Char
  | [] => []
  | c :: t => if js_ws c then skipWs t else c :: t

/-- Decimal digit test. -/
def isDigitChar (c : Char) : Bool := '0' ≤ c && c ≤ '9'

/-- Hexadecimal digit test (for `\\uXXXX` escapes). -/
def isHexChar (c : Char) : Bool :=
  isDigitChar c || ('a' ≤ c && c ≤ 'f') || ('A' ≤ c && c ≤ 'F')

/-- Scan a JSON string body (after the opening quote); `some rest` when
the string is well formed, with `rest` the input after the closing
quote.  Strict mode: raw control characters are rejected, escapes are
limited to the eight simple ones and `\\u` with four hex digits. -/
def scanStringBody (l : List Char) : Option (List Char) :=
  match l with
  | [] => none
  | c :: t =>
      if c = '"' then some t
      else if c = '\\' then
        match t with
        | [] => none
        | e :: t2 =>
            if e = '"' || e = '\\' || e = '/' || e = 'b' || e = 'f' ||
                e = 'n' || e = 'r' || e = 't' then scanStringBody t2
            else if e = 'u' then
              match t2 with
              | h1 :: h2 :: h3 :: h4 :: t3 =>
                  if isHexChar h1 && isHexChar h2 && isHexChar h3 &&
                      isHexChar h4 then scanStringBody t3
                  else none
              | _ => none
            else none
      else if c.toNat < 32 then none
      else scanStringBody t
termination_by structural l

/-- Drop a leading run of decimal digits. -/
def dropDigits : List Char → List Char
  | [] => []
  | c :: t => if isDigitChar c then dropDigits t else c :: t

/-- Whether the list starts with a decimal digit. -/
def headDigit : List Char → Bool
  | [] => false
  | c :: _ => isDigitChar c

/-- Optional exponent part of the number regular expression
(`([eE][-+]?\d+)?`): consumes it when present, otherwise consumes
nothing (the regular expression simply matches less). -/
def scanExp (l : List Char) : List Char :=
  match l with
  | e :: t =>
      if e = 'e' || e = 'E' then
        let t2 := match t with
          | s :: t' => if s = '+' || s = '-' then t' else s :: t'
          | [] => []
        if headDigit t2 then dropDigits t2 else l
      else l
  | [] => []

/-- Optional fraction part (`(\.\d+)?`) followed by the optional
exponent. -/
def scanFrac (l : List Char) : List Char :=
  match l with
  | c :: t => if c = '.' && headDigit t then scanExp (dropDigits t) else scanExp l
  | [] => []

/-- Integer part (`-?(0|[1-9]\d*)`) followed by fraction and exponent:
the maximal match of the scanner's `NUMBER_RE` at the head of the input,
or `none` when the expression does not match at all. -/
def scanNumber (l : List Char) : Option (List Char) :=
  let afterSign := match l with
    | '-' :: t => t
    | _ => l
  match afterSign with
  | '0' :: t => some (scanFrac t)
  | c :: t =>
      if isDigitChar c then some (scanFrac (dropDigits t)) else none
  | [] => none

mutual

/-- Scan one JSON value (the `py_scan_once` dispatcher); the fuel bounds
the recursion depth, every recursive call consumes at least one input
character. -/
def scanValue : Nat → List Char → Option (List Char)
  | 0, _ => none
  | _ + 1, [] => none
  | fuel + 1, c :: t =>
      if c = '"' then scanStringBody t
      else if c = '\x7b' then scanObject fuel t
      else if c = '[' then scanArray fuel t
      else if c = 'n' then
        match t with
        | 'u' :: 'l' :: 'l' :: r => some r
        | _ => none
      else if c = 't' then
        match t with
        | 'r' :: 'u' :: 'e' :: r => some r
        | _ => none
      else if c = 'f' then
        match t with
        | 'a' :: 'l' :: 's' :: 'e' :: r => some r
        | _ => none
      else if c = 'N' then
        match t with
        | 'a' :: 'N' :: r => some r
        | _ => none
      else if c = 'I' then
        match t with
        | 'n' :: 'f' :: 'i' :: 'n' :: 'i' :: 't' :: 'y' :: r => some r
        | _ => none
      else if c = '-' then
        match t with
        | 'I' :: 'n' :: 'f' :: 'i' :: 'n' :: 'i' :: 't' :: 'y' :: r => some r
        | _ => scanNumber (c :: t)
      else if isDigitChar c then scanNumber (c :: t)
      else none

/-- Scan an object after the opening brace (strict `JSONObject`): either
an immediate closing brace or a double-quoted key. -/
def scanObject : Nat → List Char → Option (List Char)
  | 0, _ => none
  | fuel + 1, l =>
      match skipWs l with
      | '\x7d' :: t => some t
      | '"' :: t => (scanStringBody t).bind (scanMembersRest fuel)
      | _ => none

/-- After an object key: whitespace, colon, value, then a comma and
the next double-quoted key or the closing brace. -/
def scanMembersRest : Nat → List Char → Option (List Char)
  | 0, _ => none
  | fuel + 1, l =>
      match skipWs l with
      | ':' :: t =>
          (scanValue fuel (skipWs t)).bind fun r =>
            match skipWs r with
            | ',' :: t2 =>
                (match skipWs t2 with
                 | '"' :: t3 => (scanStringBody t3).bind (scanMembersRest fuel)
                 | _ => none)
            | '\x7d' :: t2 => some t2
            | _ => none
      | _ => none

/-- Scan an array after the opening bracket (`JSONArray`). -/
def scanArray : Nat → List Char → Option (List Char)
  | 0, _ => none
  | fuel + 1, l =>
      match skipWs l with
      | ']' :: t => some t
      | l1 => (scanValue fuel l1).bind (scanElemsRest fuel)

/-- After an array element: a comma and the next value, or the closing
bracket. -/
def scanElemsRest : Nat → List Char → Option (List Char)
  | 0, _ => none
  | fuel + 1, l =>
      match skipWs l with
      | ',' :: t => (scanValue fuel (skipWs t)).bind (scanElemsRest fuel)
      | ']' :: t => some t
      | _ => none

end

/-- Model of `is_valid_json` (src/blog/automation.py lines 731-737):
whether `json.loads` accepts the string — leading and trailing
whitespace allowed around exactly one value. -/
def is_valid_json (s : String) : Bool :=
  let l := s.toList
  match scanValue (l.length + 1) (skipWs l) with
  | some rest => (skipWs rest).isEmpty
  | none => false

/-! ## JSON repair engine (src/blog/automation.py lines 655-737) -/

/-- Suffix of `l` from the first occurrence of `c` (inclusive), when
any. -/
def afterFirst (c : Char) : List Char → Option (List Char)
  | [] => none
  | a :: t => if a = c then some (a :: t) else afterFirst c t

/-- Prefix of `l` up to and including the last occurrence of `c`, when
any. -/
def truncAfterLast (c : Char) (l : List Char) : Option (List Char) :=
  (afterFirst c l.reverse).map List.reverse

/-- The span from the first `{` to the last `}` (the greedy
`({[\s\S]*})` / `({.*})` bodies of the extraction regexes), or `none`
when no such span exists. -/
def brace_span (l : List Char) : Option (List Char) :=
  (afterFirst '\x7b' l).bind (truncAfterLast '\x7d')

/-- The first substitution of `aggressive_json_repair`
(src/blog/automation.py line 696):
`re.sub(r'.*?({.*})[^}]*$', r'\1', s, flags=re.DOTALL)` keeps the span
from the first `{` to the last `}` when one exists and otherwise leaves
the text unchanged. -/
def aggressive_clean (l : List Char) : List Char :=
  match brace_span l with
  | some u => u
  | none => l

/-- Search for the pattern `"<field>"\s*:\s*"([^"]+)"` (the
`title` / `meta_description` extraction of `aggressive_json_repair`,
src/blog/automation.py lines 701-705), returning the first captured
group. -/
def fieldMatchAt (field : List Char) (l : List Char) :
    Option (List Char) :=
  if ('"' :: field ++ [ '"']).isPrefixOf l then
    let t := l.drop (field.length + 2)
    let t := t.dropWhile py_isspace
    match t with
    | ':' :: t2 =>
        let t3 := t2.dropWhile py_isspace
        (match t3 with
         | '"' :: t4 =>
             let grp := t4.takeWhile (fun c => ¬ c = '"')
             let rest := t4.dropWhile (fun c => ¬ c = '"')
             (match rest with
              | '"' :: _ => if grp.isEmpty then none else some grp
              | _ => none)
         | _ => none)
    | _ => none
  else none

/-- Leftmost search for the field pattern. -/
def searchField (field : List Char) : List Char → Option (List Char)
  | [] => none
  | l@(_ :: t) =>
      match fieldMatchAt field l with
      | some g => some g
      | none => searchField field t

/-- The minimal fallback object built by `aggressive_json_repair`
(src/blog/automation.py lines 708-726). -/
def minimal_json (title meta : Option (List Char)) : Json :=
  Json.obj [
    ("title", .str (String.mk ((title.getD
      "Generated Blog Post".toList)))),
    ("meta_description", .str (String.mk ((meta.getD
      "Generated blog post with minimal content".toList)))),
    ("introduction", .str "This is a placeholder introduction."),
    ("table_of_contents", .arr [.str "Section 1"]),
    ("sections", .arr [.obj [
      ("heading", .str "Section 1"),
      ("content", .str
        "This is placeholder content. The original content generation had errors.")]]),
    ("conclusion", .str "This is a placeholder conclusion."),
    ("faq", .arr [.obj [
      ("question", .str "What happened to the original content?"),
      ("answer", .str
        "There was an error in generating the original content.")]])]

/-- Embedding of `aggressive_json_repair(json_str)` from
src/blog/automation.py lines 691-729. -/
def aggressive_json_repair (s : String) : String :=
  let cleaned := String.mk (aggressive_clean s.toList)
  if is_valid_json cleaned then cleaned
  else
    let title := searchField "title".toList cleaned.toList
    let meta := searchField "meta_description".toList cleaned.toList
    json_dumps (minimal_json title meta)

/-! ## JSON extraction chain
(src/blog/automation.py lines 584-610, `generate_blog_content_with_gemini`) -/

/-- Python `str.strip()` over the character list (ASCII whitespace; the
modelled inputs contain no exotic Unicode spaces). -/
def trimPy (l : List Char) : List Char :=
  ((l.dropWhile py_isspace).reverse.dropWhile py_isspace).reverse

/-- Python `str.strip()`. -/
def pyStrip (s : String) : String := String.mk (trimPy s.toList)

/-- Split at the first occurrence of `needle`: `some (before, after)`
with `after` the text following the occurrence. -/
def splitAtSub (needle : List Char) : List Char → Option (List Char × List Char)
  | [] => if needle.isEmpty then some ([], []) else none
  | c :: t =>
      if needle.isPrefixOf (c :: t) then
        some ([], (c :: t).drop needle.length)
      else (splitAtSub needle t).map (fun p => (c :: p.1, p.2))

/-- First extraction attempt (src/blog/automation.py line 585):
`re.search(r'```json\s*(.*?)\s*```', text, re.DOTALL)`.  The greedy
leading `\s*`, the lazy group and the trailing `\s*` make the group the
text between the first occurrence of the json fence opener and the first
subsequent triple backtick, with whitespace trimmed from both ends. -/
def fence_json (l : List Char) : Option (List Char) :=
  (splitAtSub "```json".toList l).bind (fun p =>
    (splitAtSub "```".toList p.2).map (fun q => trimPy q.1))

/-- Whether `\s*` followed by a triple backtick matches here (the tail
condition of the second extraction regex's lazy group). -/
def wsThenFence (t : List Char) : Bool :=
  "```".toList.isPrefixOf (t.dropWhile py_isspace)

/-- Lazy body of `({\s*".*?})` after the opening quote: consume up to
the first `}` that is followed by `\s*` and a triple backtick, and
include that `}`. -/
def genericBody : List Char → Option (List Char)
  | [] => none
  | c :: t =>
      if c = '\x7d' && wsThenFence t then some [ '\x7d']
      else (genericBody t).map (fun r => c :: r)

/-- Attempt the second regex's group at one triple-backtick occurrence
(the text after the backticks is `t0`). -/
def tryGeneric (t0 : List Char) : Option (List Char) :=
  match t0.dropWhile py_isspace with
  | '\x7b' :: t2 =>
      let ws2 := t2.takeWhile py_isspace
      (match t2.dropWhile py_isspace with
       | '"' :: t4 => (genericBody t4).map
           (fun b => '\x7b' :: ws2 ++ '"' :: b)
       | _ => none)
  | _ => none

/-- Second extraction attempt (src/blog/automation.py line 591):
`re.search(r'```\s*({\s*".*?})\s*```', text, re.DOTALL)`, leftmost
occurrence. -/
def fence_generic : List Char → Option (List Char)
  | [] => none
  | l@(_ :: t) =>
      if "```".toList.isPrefixOf l then
        match tryGeneric (l.drop 3) with
        | some g => some g
        | none => fence_generic t
      else fence_generic t

/-- The full extraction of `generate_blog_content_with_gemini`
(src/blog/automation.py lines 584-607): fenced json block, then generic
fenced block, then the greedy `({[\s\S]*})` span, then the whole trimmed
text; the selected string is stripped (line 607). -/
def extract_json_str (response_text : String) : String :=
  let json_str :=
    match fence_json response_text.toList with
    | some g => String.mk g
    | none =>
        match fence_generic response_text.toList with
        | some g => String.mk g
        | none =>
            match brace_span response_text.toList with
            | some g => String.mk g
            | none => pyStrip response_text
  pyStrip json_str

/-! ## Light JSON repair `fix_json_string`
(src/blog/automation.py lines 655-689) -/

/-- Split at newline characters (Python `str.split('\n')`). -/
def splitLines (l : List Char) : List (List Char) :=
  match l with
  | [] => [[]]
  | c :: t =>
      let r := splitLines t
      if c = '\n' then [] :: r
      else
        match r with
        | line :: rest => (c :: line) :: rest
        | [] => [[c]]

/-- Join lines with newlines (Python `'\n'.join(...)`). -/
def joinLines : List (List Char) → List Char
  | [] => []
  | [line] => line
  | line :: l :: t => line ++ '\n' :: joinLines (l :: t)

/-- The odd-quote repair applied per line (src/blog/automation.py
lines 666-675): a line with an odd number of `"` characters gets one
more inserted directly after its last `"` (an odd count guarantees the
line has one). -/
def fixLine (line : List Char) : List Char :=
  if (line.count '"') % 2 = 1 then
    match afterFirst '"' line.reverse with
    | some r => r.reverse ++ '"' :: (line.reverse.takeWhile
        (fun c => ¬ c = '"')).reverse
    | none => line
  else line

/-- Match of `\s*{` (used for the `}\s*{` → `}, {` substitution);
returns the rest after the `{`. -/
def glueMatch : List Char → Option (List Char)
  | [] => none
  | c :: t =>
      if c = '\x7b' then some t
      else if py_isspace c then glueMatch t
      else none

theorem glueMatch_length {t r : List Char} (h : glueMatch t = some r) :
    r.length < t.length := by
  induction t with
  | nil => simp [glueMatch] at h
  | cons c t ih =>
      by_cases hc : c = '\x7b'
      · simp [glueMatch, hc] at h
        subst h
        simp
      · by_cases hs : py_isspace c
        · simp [glueMatch, hc, hs] at h
          have := ih h
          simp
          omega
        · simp [glueMatch, hc, hs] at h

/-- The substitution `re.sub(r'}\s*{', '}, {', ...)` scanning left to
right and resuming after each replacement.  The fuel only serves
structural recursion; every recursive call is on a strictly shorter
list, so a fuel of the input length never runs out. -/
def sub_brace_glue_fuel : Nat → List Char → List Char
  | 0, l => l
  | _ + 1, [] => []
  | fuel + 1, c :: t =>
      if c = '\x7d' then
        match glueMatch t with
        | some r => '\x7d' :: ',' :: ' ' :: '\x7b' :: sub_brace_glue_fuel fuel r
        | none => '\x7d' :: sub_brace_glue_fuel fuel t
      else c :: sub_brace_glue_fuel fuel t

/-- The `}\s*{` → `}, {` substitution. -/
def sub_brace_glue (l : List Char) : List Char :=
  sub_brace_glue_fuel l.length l

/-- Match of `\s*<close>` (used for the trailing-comma substitutions);
returns the rest after the closing character. -/
def commaMatch (close : Char) : List Char → Option (List Char)
  | [] => none
  | c :: t =>
      if c = close then some t
      else if py_isspace c then commaMatch close t
      else none

theorem commaMatch_length {close : Char} {t r : List Char}
    (h : commaMatch close t = some r) : r.length < t.length := by
  induction t with
  | nil => simp [commaMatch] at h
  | cons c t ih =>
      by_cases hc : c = close
      · simp [commaMatch, hc] at h
        subst h
        simp
      · by_cases hs : py_isspace c
        · simp [commaMatch, hc, hs] at h
          have := ih h
          simp
          omega
        · simp [commaMatch, hc, hs] at h

/-- The substitutions `re.sub(r',\s*}', '}', ...)` and
`re.sub(r',\s*]', ']', ...)`, scanning left to right (fuel as in
`sub_brace_glue_fuel`). -/
def sub_trailing_comma_fuel (close : Char) : Nat → List Char → List Char
  | 0, l => l
  | _ + 1, [] => []
  | fuel + 1, c :: t =>
      if c = ',' then
        match commaMatch close t with
        | some r => close :: sub_trailing_comma_fuel close fuel r
        | none => ',' :: sub_trailing_comma_fuel close fuel t
      else c :: sub_trailing_comma_fuel close fuel t

/-- The trailing-comma substitution. -/
def sub_trailing_comma (close : Char) (l : List Char) : List Char :=
  sub_trailing_comma_fuel close l.length l

/-- Identifier characters of the unquoted-key pattern
(`[a-zA-Z0-9_]`). -/
def isWordChar (c : Char) : Bool :=
  (97 ≤ c.toNat && c.toNat ≤ 122) || (65 ≤ c.toNat && c.toNat ≤ 90) ||
    isDigitChar c || c = '_'

/-- Match of `\s*([a-zA-Z0-9_]+)\s*:` after a `{` or `,`; returns the
three captured pieces and the rest after the colon. -/
def keyMatch (l : List Char) :
    Option (List Char × List Char × List Char × List Char) :=
  let ws1 := l.takeWhile py_isspace
  let t1 := l.dropWhile py_isspace
  let word := t1.takeWhile isWordChar
  let t2 := t1.dropWhile isWordChar
  if word.isEmpty then none
  else
    let ws2 := t2.takeWhile py_isspace
    let t3 := t2.dropWhile py_isspace
    match t3 with
    | ':' :: rest => some (ws1, word, ws2, rest)
    | _ => none

theorem keyMatch_length {t : List Char}
    {ws1 word ws2 rest : List Char}
    (h : keyMatch t = some (ws1, word, ws2, rest)) :
    rest.length < t.length := by
  unfold keyMatch at h
  dsimp only at h
  split at h
  · simp at h
  · split at h
    · rename_i a heq
      simp only [Option.some.injEq, Prod.mk.injEq] at h
      obtain ⟨-, -, -, hrest⟩ := h
      subst hrest
      have e1 : (t.takeWhile py_isspace).length +
          (t.dropWhile py_isspace).length = t.length := by
        rw [← List.length_append, List.takeWhile_append_dropWhile]
      have e2 : ((t.dropWhile py_isspace).takeWhile isWordChar).length +
          ((t.dropWhile py_isspace).dropWhile isWordChar).length =
          (t.dropWhile py_isspace).length := by
        rw [← List.length_append, List.takeWhile_append_dropWhile]
      have e3 : (((t.dropWhile py_isspace).dropWhile
            isWordChar).takeWhile py_isspace).length +
          (((t.dropWhile py_isspace).dropWhile
            isWordChar).dropWhile py_isspace).length =
          ((t.dropWhile py_isspace).dropWhile isWordChar).length := by
        rw [← List.length_append, List.takeWhile_append_dropWhile]
      rw [heq] at e3
      simp only [List.length_cons] at e3
      omega
    · simp at h

/-- The substitution
`re.sub(r'([{,]\s*)([a-zA-Z0-9_]+)(\s*:)', r'\1"\2"\3', ...)`, scanning
left to right and resuming after each replaced colon. -/
def sub_quote_keys_fuel : Nat → List Char → List Char
  | 0, l => l
  | _ + 1, [] => []
  | fuel + 1, c :: t =>
      if c = '\x7b' ∨ c = ',' then
        match keyMatch t with
        | some (ws1, word, ws2, rest) =>
            c :: (ws1 ++ '"' :: word ++ '"' :: ws2 ++ ':' ::
              sub_quote_keys_fuel fuel rest)
        | none => c :: sub_quote_keys_fuel fuel t
      else c :: sub_quote_keys_fuel fuel t

/-- The unquoted-key substitution. -/
def sub_quote_keys (l : List Char) : List Char :=
  sub_quote_keys_fuel l.length l

/-- Embedding of `fix_json_string(json_str)` from
src/blog/automation.py lines 655-689: strip before the first `{` and
after the last `}`, per-line odd-quote repair, `}\s*{` gluing,
trailing-comma removal, and unquoted-key quoting. -/
def fix_json_string (s : String) : String :=
  let l := s.toList
  let l := l.dropWhile (fun c => ¬ c = '\x7b')
  let l := (l.reverse.dropWhile (fun c => ¬ c = '\x7d')).reverse
  let l := joinLines ((splitLines l).map fixLine)
  let l := sub_brace_glue l
  let l := sub_trailing_comma '\x7d' l
  let l := sub_trailing_comma ']' l
  let l := sub_quote_keys l
  String.mk l

/-! ## Helper notions for the serializer/scanner correspondence -/

/-- What may legally follow a serialized value inside `json.dumps`
output: nothing, a comma, or a closing bracket or brace.  (This rules
out the characters that would extend a number token.) -/
def sepOk : List Char → Prop
  | [] => True
  | c :: _ => c = ',' ∨ c = ']' ∨ c = '\x7d'

/-- The serialized separators-and-items tail of a list (everything of
`dumpItems (x :: xs)` after `dumpChars x`). -/
def sepItems : List Json → List Char
  | [] => []
  | x :: t => ',' :: ' ' :: dumpChars x ++ sepItems t

/-- The serialized separators-and-members tail of an object. -/
def sepMembers : List (String × Json) → List Char
  | [] => []
  | (key, v) :: t =>
      ',' :: ' ' :: strChars key ++ ':' :: ' ' :: dumpChars v ++
        sepMembers t

/-- Characters that none of the `fix_json_string` substitutions can
touch and that `json.dumps` never escapes: printable ASCII other than
quote, backslash, braces, brackets, colon, comma and backtick. -/
def safeChar (c : Char) : Bool :=
  32 ≤ c.toNat && c.toNat ≤ 126 &&
    ¬ (c = '"' || c = '\\' || c = '\x7b' || c = '\x7d' || c = '[' ||
      c = ']' || c = ':' || c = ',' || c = '`')

/-- No position of the list triggers the `}\s*{` substitution: after
every `\x7d` the following text does not match `\s*\x7b`. -/
def noGlue : List Char → Bool
  | [] => true
  | c :: t =>
      (if c = '\x7d' then (glueMatch t).isNone else true) && noGlue t

/-- No position triggers the trailing-comma substitution for `close`. -/
def noTrail (close : Char) : List Char → Bool
  | [] => true
  | c :: t =>
      (if c = ',' then (commaMatch close t).isNone else true) &&
        noTrail close t

/-- No position triggers the unquoted-key substitution. -/
def noBareKey : List Char → Bool
  | [] => true
  | c :: t =>
      (if c = '\x7b' ∨ c = ',' then (keyMatch t).isNone else true) &&
        noBareKey t

/-- All four left-to-right substitutions of `fix_json_string` leave the
text unchanged. -/
def scansClean (l : List Char) : Prop :=
  noGlue l = true ∧ noTrail '\x7d' l = true ∧ noTrail ']' l = true ∧
    noBareKey l = true

mutual

/-- JSON values all of whose strings (keys and string values) consist of
safe characters: on these, every light repair of `fix_json_string` is
the identity. -/
def safeJson : Json → Bool
  | .null => true
  | .bool _ => true
  | .num _ => true
  | .str s => s.toList.all safeChar
  | .arr items => safeItems items
  | .obj members => safeMembers members

/-- Safety for item lists. -/
def safeItems : List Json → Bool
  | [] => true
  | x :: t => safeJson x && safeItems t

/-- Safety for member lists. -/
def safeMembers : List (String × Json) → Bool
  | [] => true
  | (k, v) :: t => k.toList.all safeChar && safeJson v && safeMembers t

end

/-! ## Topic selection with duplicate / freshness detection
(src/blog/tasks.py lines 1402-1567, `generate_blog_content`) -/

/-- Python `list(set(...))` over keywords: deduplication.  A Python set
iterates in an unspecified order; every use downstream is
order-insensitive (membership tests, per-keyword counts and lookups), so
first-occurrence order is fixed here. -/
def py_set_list (l : List String) : List String :=
  l.foldl (fun acc k => if k ∈ acc then acc else acc ++ [ k]) []

/-- Number of entries of `l` whose lower-cased form equals the (already
lower-cased) keyword `k`: the Django `keyword__iexact=k` count of
src/blog/tasks.py line 1441. -/
def count_iexact (l : List String) (k : String) : Nat :=
  (l.filter (fun t => pyLower t = k)).length

/-- The deduplicated lower-cased keywords of the recently processed
topics (src/blog/tasks.py line 1435). -/
def recent_keywords_of (recent_processed : List String) : List String :=
  py_set_list (recent_processed.map pyLower)

/-- The duplicate trending keywords: those appearing at least twice in
the recent window (src/blog/tasks.py lines 1438-1444). -/
def duplicate_topics_of (recent_processed : List String) : List String :=
  (recent_keywords_of recent_processed).filter
    (fun k => 2 ≤ count_iexact recent_processed k)

/-- The duplicate keywords that already have blog posts in the recent
window, paired with the template types of those posts
(src/blog/tasks.py lines 1454-1468).  `recent_blogs` is the list of
(trending-topic keyword, template type) pairs of posts created within
the recency window. -/
def topics_with_recent_blogs_of (recent_processed : List String)
    (recent_blogs : List (String × String)) :
    List (String × List String) :=
  (duplicate_topics_of recent_processed).filterMap (fun k =>
    let recent := recent_blogs.filter (fun b => pyLower b.1 = k)
    if recent.isEmpty then none else some (k, recent.map Prod.snd))

/-- The Django `keyword__iregex=r'(k1|k2|...)'` test of
src/blog/tasks.py line 1479: a case-insensitive regular-expression
search, i.e. some recent keyword occurs as a substring of the candidate
keyword (the keywords are treated as regex literals; none of the
modelled inputs contain regex metacharacters). -/
def keyword_matches_recent (keys : List String) (kw : String) : Bool :=
  keys.any (fun k => strIn k (pyLower kw))

/-- The template re-selection applied under the different-angle strategy
(src/blog/tasks.py lines 1509-1520): look up the selected keyword among
the duplicate topics with recent blogs and, when an unused template
remains in the fixed option list, take the first one. -/
def fresh_template_choice (twrb : List (String × List String))
    (selected : String) (template_type : String) : String :=
  match twrb.find? (fun td => pyLower td.1 = pyLower selected) with
  | some td =>
      let template_options : List String :=
        [ "how_to", "listicle", "news", "review", "opinion"]
      let available_templates := template_options.filter
        (fun t => ¬ t ∈ td.2)
      (match available_templates with
       | [] => template_type
       | t :: _ => t)
  | none => template_type

/-- Embedding of the selection logic of `generate_blog_content`
(src/blog/tasks.py lines 1413-1520): returns the selected topic keyword,
the template type and the freshness strategy, or `none` when no
candidate exists (the source returns early after queueing a fetch).
`candidates` is the keyword list of unprocessed, unfiltered topics in
descending rank order. -/
def generate_blog_content_select (candidates recent_processed : List String)
    (recent_blogs : List (String × String)) :
    Option (String × String × Option String) :=
  match candidates with
  | [] => none
  | first :: _ =>
      let twrb := topics_with_recent_blogs_of recent_processed recent_blogs
      let sel :=
        if (duplicate_topics_of recent_processed).isEmpty then (first, none)
        else if twrb.isEmpty then (first, none)
        else
          let keys := twrb.map (fun t => pyLower t.1)
          match candidates.filter
              (fun c => ! keyword_matches_recent keys c) with
          | alt :: _ => (alt, none)
          | [] => (first, some "different_angle")
      let selected_topic := sel.1
      let fresh_content_strategy : Option String := sel.2
      let template_type := predict_template_type selected_topic
      let template_type :=
        if fresh_content_strategy = some "different_angle" then
          fresh_template_choice twrb selected_topic template_type
        else template_type
      some (selected_topic, template_type, fresh_content_strategy)

/-! ## LLM chat adapter and conversation cache
(src/blog/blog_ai.py, `ConversationCache` and `GeminiChatbot.chat`) -/

/-- A conversation turn: a `{"role": ..., "content": ...}` dictionary. -/
structure Message where
  role : String
  content : String
deriving DecidableEq, Repr

/-- A conversation history. -/
abbrev History := List Message

/-- A cache entry: the `{"conversation_id", "timestamp", "history"}`
dictionary stored per conversation (the id is the association key). -/
structure CacheEntry where
  timestamp : Nat
  history : History
deriving DecidableEq, Repr

/-- Lookup in an insertion-ordered dictionary modelled as an
association list. -/
def lookupConv : List (String × CacheEntry) → String → Option CacheEntry
  | [], _ => none
  | p :: t, cid => if p.1 = cid then some p.2 else lookupConv t cid

/-- Assignment in an insertion-ordered dictionary: an existing key is
updated in place, a new key is appended (Python dict semantics). -/
def setConv : List (String × CacheEntry) → String → CacheEntry →
    List (String × CacheEntry)
  | [], cid, e => [(cid, e)]
  | p :: t, cid, e => if p.1 = cid then (cid, e) :: t else p :: setConv t cid e

/-- Removal from an insertion-ordered dictionary. -/
def delConv (m : List (String × CacheEntry)) (cid : String) :
    List (String × CacheEntry) :=
  m.filter (fun p => ¬ p.1 = cid)

/-- State of `ConversationCache` (src/blog/blog_ai.py lines 32-199):
the in-memory `self.cache` dictionary, the on-disk cache files
(`<conversation_id>.json`), the eviction parameters, and the formatted
template-context message.  `template_context` is the content string that
`add_template_context_to_conversation` builds from
`self.template_info` (lines 203-237); it is `none` when no template
information is available (the method then returns without touching the
conversation), and it always starts with the sentinel text
TEMPLATE INFORMATION used by the idempotence check. -/
structure ConversationCache where
  mem : List (String × CacheEntry)
  disk : List (String × CacheEntry)
  max_cache_size : Nat
  ttl : Nat
  template_context : Option String

/-- `_save_conversation` (src/blog/blog_ai.py lines 179-190): writes the
conversation file with a fresh timestamp. -/
def save_conversation (c : ConversationCache) (cid : String)
    (history : History) (now : Nat) : ConversationCache :=
  { c with disk := setConv c.disk cid ⟨now, history⟩ }

/-- `get_conversation` (src/blog/blog_ai.py lines 159-167): on a cache
hit the entry's timestamp is refreshed, the file is rewritten, and the
entry's own history list is returned (the caller's list is aliased with
the cache entry); on a miss a fresh empty list is returned and nothing
changes. -/
def get_conversation (c : ConversationCache) (cid : String) (now : Nat) :
    History × ConversationCache :=
  match lookupConv c.mem cid with
  | some e =>
      let c := { c with mem := setConv c.mem cid ⟨now, e.history⟩ }
      let c := save_conversation c cid e.history now
      (e.history, c)
  | none => ([], c)

/-- `_remove_from_cache` (src/blog/blog_ai.py lines 149-157). -/
def remove_from_cache (c : ConversationCache) (cid : String) :
    ConversationCache :=
  if (lookupConv c.mem cid).isSome then
    { c with mem := delConv c.mem cid, disk := delConv c.disk cid }
  else c

/-- First key of minimal timestamp (Python's stable
`sorted(..., key=timestamp)` removes the oldest entries first; repeated
removal of the first-encountered minimum removes the same set). -/
def find_oldest (m : List (String × CacheEntry)) : Option String :=
  (m.foldl (fun acc p =>
    match acc with
    | none => some p
    | some q => if p.2.timestamp < q.2.timestamp then some p else acc)
    none).map Prod.fst

/-- Removal of the `n` oldest entries (src/blog/blog_ai.py
lines 139-147). -/
def remove_oldest (c : ConversationCache) : Nat → ConversationCache
  | 0 => c
  | n + 1 =>
      match find_oldest c.mem with
      | none => c
      | some cid => remove_oldest (remove_from_cache c cid) n

/-- `_clean_cache` (src/blog/blog_ai.py lines 126-147): drop expired
entries, then cap the cache size by evicting the oldest entries. -/
def clean_cache (c : ConversationCache) (now : Nat) : ConversationCache :=
  let expired := c.mem.filter (fun p => c.ttl < now - p.2.timestamp)
  let c := expired.foldl (fun acc p => remove_from_cache acc p.1) c
  if c.max_cache_size < c.mem.length then
    remove_oldest c (c.mem.length - c.max_cache_size)
  else c

/-- `update_conversation` (src/blog/blog_ai.py lines 169-177). -/
def update_conversation (c : ConversationCache) (cid : String)
    (history : History) (now : Nat) : ConversationCache :=
  let c := { c with mem := setConv c.mem cid ⟨now, history⟩ }
  let c := save_conversation c cid history now
  clean_cache c now

/-- `add_template_context_to_conversation` (src/blog/blog_ai.py
lines 201-263): no-op without template information; otherwise a single
system message holding the template context is inserted (idempotently,
detected by the TEMPLATE INFORMATION sentinel) after the first system
message or at index 0, and the conversation is written back. -/
def add_template_context_to_conversation (c : ConversationCache)
    (cid : String) (now : Nat) : ConversationCache :=
  match c.template_context with
  | none => c
  | some template_context =>
      let (history, c) := get_conversation c cid now
      let template_already_added := history.any (fun m =>
        m.role = "system" && strIn "TEMPLATE INFORMATION" m.content)
      if template_already_added then c
      else
        let system_message : Message := ⟨"system", template_context⟩
        let history := match history.findIdx? (fun m => m.role = "system") with
          | some i => history.take (i + 1) ++ [system_message] ++
              history.drop (i + 1)
          | none => [system_message] ++ history
        update_conversation c cid history now

/-- Outcome of the underlying Gemini calls inside the `try` block of
`chat`: `model.start_chat` raising, `chat.send_message` raising, or a
successful response text. -/
inductive GenOutcome where
  | startFail (msg : String)
  | sendFail (msg : String)
  | ok (text : String)
deriving DecidableEq, Repr

/-- The dictionary returned by `chat`, with `Option` fields for the keys
that only one of the two return paths carries (`model` and
`processing_time` on success, `error` on failure). -/
structure ChatResponse where
  response : String
  conversation_id : String
  model : Option String
  processing_time : Option Nat
  error : Option String
  timestamp : Nat
deriving DecidableEq, Repr

/-- State of a `GeminiChatbot` (src/blog/blog_ai.py lines 374-429). -/
structure GeminiChatbot where
  model_name : String
  system_prompt : String
  cache : ConversationCache

/-- Embedding of `GeminiChatbot.chat` (src/blog/blog_ai.py
lines 431-503).  `auto_id` stands for the generated
`conv_<time>_<hash>` identifier used when `conversation_id` is falsy
(Python's string hash is seed-randomized, so the generated id is a
parameter); `start_time`/`now` are the two clock samples; `gen` is the
outcome of the underlying generation calls.  On a cache hit with no
overriding context, the history list returned by `get_conversation` is
the cache entry's own list, so the `history.append(...)` calls before
`send_message` write through into the in-memory entry; the `aliased`
flag models exactly this sharing. -/
def chat (bot : GeminiChatbot) (user_input : String)
    (conversation_id : String) (context : Option History)
    (include_template_info : Bool) (gen : GenOutcome) (auto_id : String)
    (start_time now : Nat) : ChatResponse × GeminiChatbot :=
  let conversation_id :=
    if conversation_id = "" then auto_id else conversation_id
  let step1 : History × ConversationCache × Bool :=
    match context with
    | some ctx =>
        if ctx.isEmpty then
          let (h, c) := get_conversation bot.cache conversation_id now
          (h, c, (lookupConv bot.cache.mem conversation_id).isSome)
        else (ctx, bot.cache, false)
    | none =>
        let (h, c) := get_conversation bot.cache conversation_id now
        (h, c, (lookupConv bot.cache.mem conversation_id).isSome)
  let step2 : History × ConversationCache × Bool :=
    if include_template_info then
      let c := add_template_context_to_conversation step1.2.1
        conversation_id now
      let (h, c) := get_conversation c conversation_id now
      (h, c, (lookupConv c.mem conversation_id).isSome)
    else step1
  let history := step2.1
  let cache := step2.2.1
  let aliased := step2.2.2
  match gen with
  | .startFail msg =>
      (⟨ "I\x27m sorry, I encountered an error processing your request.",
        conversation_id, none, none, some msg, now⟩,
        { bot with cache := cache })
  | .sendFail msg =>
      let history1 :=
        if history.isEmpty then
          history ++ [⟨ "system", bot.system_prompt⟩]
        else history
      let history2 := history1 ++ [⟨ "user", user_input⟩]
      let cache :=
        if aliased then
          { cache with
            mem := (setConv cache.mem conversation_id ⟨now, history2⟩) }
        else cache
      (⟨ "I\x27m sorry, I encountered an error processing your request.",
        conversation_id, none, none, some msg, now⟩,
        { bot with cache := cache })
  | .ok text =>
      let history1 :=
        if history.isEmpty then
          history ++ [⟨ "system", bot.system_prompt⟩]
        else history
      let history2 := history1 ++ [⟨ "user", user_input⟩]
      let history3 := history2 ++ [⟨ "assistant", text⟩]
      let cache := update_conversation cache conversation_id history3 now
      (⟨text, conversation_id, some bot.model_name,
        some (now - start_time), none, now⟩,
        { bot with cache := cache })

/-- A concrete chatbot state with one cached conversation, used to
exercise the failure paths of `chat`. -/
def demo_bot : GeminiChatbot :=
  { model_name := "gemini-1.5-pro"
    system_prompt := "sys"
    cache :=
      { mem := [("c", ⟨5, [⟨ "user", "hi"⟩, ⟨ "assistant", "yo"⟩]⟩)]
        disk := [("c", ⟨5, [⟨ "user", "hi"⟩, ⟨ "assistant", "yo"⟩]⟩)]
        max_cache_size := 100
        ttl := 86400
        template_context := none } }

/-- A content object whose sections follow the declared schema
(`heading`/`content`/`subsections` with `heading`/`content`/
`list_items`), used to exercise the renderer on schema-conformant
input.  This is exactly the shape requested from the model by
`generate_json_seo_prompt` (src/blog/tasks.py lines 745-772). -/
def schema_content : ContentData where
  title := some "T"
  featured_image := none
  table_of_contents := []
  prerequisites := none
  comparison_table := none
  local_info := none
  sections := [
    { ty := none
      heading := some "Sec"
      h1 := none
      h2 := none
      content := some "C"
      image := none
      subsections := [
        { heading := some "Sub"
          h3 := none
          content := some "SC"
          image := none
          list_items := [ "a"] }] }]
  faq := []
  call_to_action := none

/-- A content object with the given title, an empty `sections` list and
no optional blocks. -/
def title_only_content (title : String) : ContentData where
  title := some title
  featured_image := none
  table_of_contents := []
  prerequisites := none
  comparison_table := none
  local_info := none
  sections := []
  faq := []
  call_to_action := none

end Scoop

namespace Scoop

/-! ## Claim C2: template-prediction test vectors -/

/-- C2 counterexample: the spec's fifth test vector fails on the code.
`predict_template_type "Ultimate guide to investing"` returns how_to,
not evergreen, because the substring rule for the word guide fires in
the first (how-to) branch before the evergreen branch is reached. -/
theorem predict_template_type_ultimate_guide_not_evergreen :
    ¬ (predict_template_type "Ultimate guide to investing" = "evergreen") := by
  decide

/-- C2 (amended): the first four test vectors hold as specified, and the
fifth, "Ultimate guide to investing", maps to how_to (its "guide"
substring matches the how-to rule, which precedes the evergreen rule). -/
theorem predict_template_type_test_vectors :
    predict_template_type "how to bake bread" = "how_to" ∧
    predict_template_type "iPhone vs Samsung" = "comparison" ∧
    predict_template_type "Best restaurants near me" = "local" ∧
    predict_template_type "Breaking news: company launches product" = "trend" ∧
    predict_template_type "Ultimate guide to investing" = "how_to" := by
  refine ⟨by decide, by decide, by decide, by decide, by decide⟩

/-! ## Claim C3: engagement-score monotonicity and bounds -/

/-- C3 counterexample: the final selection score is not clamped to
`[0, 100]`.  With average views 2000, average time 200 s, search volume
10000 and increase percentage 500, the engagement potential clamps to
100 but the two +20 factors are added afterwards, giving 140. -/
theorem select_topic_engagement_score_exceeds_100 :
    select_topic_engagement_score 2000 200 10000 500 = 140 ∧
    ¬ (select_topic_engagement_score 2000 200 10000 500 ≤ 100) := by
  constructor
  · norm_num [select_topic_engagement_score, calculate_engagement_potential]
  · norm_num [select_topic_engagement_score, calculate_engagement_potential]

theorem calculate_engagement_potential_eq (v t : ℚ) :
    calculate_engagement_potential v t =
      min (max (60 + views_bonus v + time_bonus t) 0) 100 := by
  simp only [calculate_engagement_potential, views_bonus, time_bonus]
  split_ifs <;> norm_num

theorem views_bonus_mono {v₁ v₂ : ℚ} (h : v₁ ≤ v₂) :
    views_bonus v₁ ≤ views_bonus v₂ := by
  simp only [views_bonus]
  split_ifs <;> linarith

theorem time_bonus_mono {t₁ t₂ : ℚ} (h : t₁ ≤ t₂) :
    time_bonus t₁ ≤ time_bonus t₂ := by
  simp only [time_bonus]
  split_ifs <;> linarith

/-- C3 (amended): the engagement score of
`calculate_engagement_potential` is monotonically non-decreasing in the
average historical view count and average time-on-page and is clamped to
`[0, 100]`; the final selection score adds the two normalized factors
(each at most 20) after that clamp, so it is at least the clamped score
and at most the clamped score plus 40 (hence at most 140), but is not
re-clamped to 100. -/
theorem engagement_score_monotone_and_bounds :
    (∀ v₁ v₂ t₁ t₂ : ℚ, v₁ ≤ v₂ → t₁ ≤ t₂ →
      calculate_engagement_potential v₁ t₁ ≤
        calculate_engagement_potential v₂ t₂) ∧
    (∀ v t : ℚ, 0 ≤ calculate_engagement_potential v t ∧
      calculate_engagement_potential v t ≤ 100) ∧
    (∀ v t sv ip : ℚ,
      calculate_engagement_potential v t ≤
        select_topic_engagement_score v t sv ip ∧
      select_topic_engagement_score v t sv ip ≤
        calculate_engagement_potential v t + 40 ∧
      select_topic_engagement_score v t sv ip ≤ 140) := by
  have hbounds : ∀ v t : ℚ, 0 ≤ calculate_engagement_potential v t ∧
      calculate_engagement_potential v t ≤ 100 := by
    intro v t
    simp only [calculate_engagement_potential]
    constructor
    · exact le_min (le_max_right _ _) (by norm_num)
    · exact min_le_right _ _
  have hadd : ∀ v t sv ip : ℚ,
      calculate_engagement_potential v t ≤
        select_topic_engagement_score v t sv ip ∧
      select_topic_engagement_score v t sv ip ≤
        calculate_engagement_potential v t + 40 := by
    intro v t sv ip
    simp only [select_topic_engagement_score]
    have hsv : sv > 0 → 0 ≤ min (sv / 10000) 1 * 20 ∧
        min (sv / 10000) 1 * 20 ≤ 20 := by
      intro h
      constructor
      · have : (0 : ℚ) ≤ min (sv / 10000) 1 :=
          le_min (by positivity) (by norm_num)
        nlinarith
      · have : min (sv / 10000) 1 ≤ 1 := min_le_right _ _
        nlinarith
    have hip : ip > 0 → 0 ≤ min (ip / 500) 1 * 20 ∧
        min (ip / 500) 1 * 20 ≤ 20 := by
      intro h
      constructor
      · have : (0 : ℚ) ≤ min (ip / 500) 1 :=
          le_min (by positivity) (by norm_num)
        nlinarith
      · have : min (ip / 500) 1 ≤ 1 := min_le_right _ _
        nlinarith
    split_ifs with h1 h2 h2
    · rcases hip h1 with ⟨a1, a2⟩
      rcases hsv h2 with ⟨b1, b2⟩
      constructor <;> linarith
    · rcases hip h1 with ⟨a1, a2⟩
      constructor <;> linarith
    · rcases hsv h2 with ⟨b1, b2⟩
      constructor <;> linarith
    · constructor <;> linarith
  refine ⟨?_, hbounds, ?_⟩
  · intro v₁ v₂ t₁ t₂ hv ht
    rw [calculate_engagement_potential_eq, calculate_engagement_potential_eq]
    refine min_le_min (max_le_max ?_ le_rfl) le_rfl
    have h1 := views_bonus_mono hv
    have h2 := time_bonus_mono ht
    linarith
  · intro v t sv ip
    rcases hadd v t sv ip with ⟨h1, h2⟩
    rcases hbounds v t with ⟨b1, b2⟩
    exact ⟨h1, h2, by linarith⟩

/-! ## Claim C7: template-type override on parsed content -/

/-- C7 counterexample: a suggested `template_type` of evergreen, a
member of the currently-allowed enum, is not used for the post.
`parse_json_content` validates the field against the legacy enum
(how_to, listicle, news, review, opinion), so evergreen is overwritten
with the caller value before `generate_blog_for_topic` can honor it. -/
theorem used_template_evergreen_suggestion_discarded :
    "evergreen" ∈ allowed_templates ∧
    generate_blog_used_template (some "evergreen") "trend" = "trend" ∧
    ¬ (generate_blog_used_template (some "evergreen") "trend" =
      "evergreen") := by
  refine ⟨by decide, by decide, by decide⟩

/-- Normalizing the caller-supplied template always lands in the allowed
enum (src/blog/tasks.py lines 606-609). -/
theorem normalized_caller_mem_allowed (c : String) :
    (if c ∈ allowed_templates then c else "how_to") ∈ allowed_templates := by
  by_cases h : c ∈ allowed_templates
  · rw [if_pos h]
    exact h
  · rw [if_neg h]
    decide

/-- C7 (amended): a suggested `template_type` survives to the created
post only when it is how_to, the sole member of both the legacy enum
checked by `parse_json_content` and the current enum checked by
`generate_blog_for_topic`; every other suggestion (including current
enum members such as evergreen) is discarded and the caller-supplied
template type (normalized to the current enum, defaulting to how_to) is
used. -/
theorem generate_blog_used_template_eq (suggested : Option String)
    (caller : String) :
    generate_blog_used_template suggested caller =
      if suggested = some "how_to" then "how_to"
      else if caller ∈ allowed_templates then caller else "how_to" := by
  match suggested with
  | none =>
      simp only [generate_blog_used_template, parse_json_content_template]
      rw [if_pos (normalized_caller_mem_allowed caller)]
      simp
  | some s =>
      by_cases hs : s ∈ parse_allowed_templates
      · have h5 : s = "how_to" ∨ s = "listicle" ∨ s = "news" ∨
            s = "review" ∨ s = "opinion" := by
          simpa [parse_allowed_templates] using hs
        rcases h5 with h | h | h | h | h <;> subst h <;>
          · simp only [generate_blog_used_template,
              parse_json_content_template]
            rw [if_pos (by decide : (_ : String) ∈ parse_allowed_templates)]
            first
            | (rw [if_pos (by decide : (_ : String) ∈ allowed_templates)]
               simp)
            | (rw [if_neg (by decide : ¬ (_ : String) ∈ allowed_templates)]
               simp)
      · have hne : s ≠ "how_to" := by
          intro h
          subst h
          exact hs (by decide)
        simp only [generate_blog_used_template, parse_json_content_template]
        rw [if_neg hs, if_pos (normalized_caller_mem_allowed caller)]
        simp [hne]

/-- C7 witness: the amended characterization applied at concrete
inputs (a suggestion of listicle with caller trend yields trend). -/
theorem generate_blog_used_template_eq_witness :
    generate_blog_used_template (some "listicle") "trend" = "trend" := by
  have h := generate_blog_used_template_eq (some "listicle") "trend"
  simpa using h

/-! ## Claim C4: rendering of schema-conformant sections -/

/-- C4: the renderer drops every heading of schema-conformant content.
`format_json_to_html` looks up the keys `h2` and `h3`, while the
declared schema (and the JSON format demanded by the pipeline's own
prompt in `generate_json_seo_prompt`) stores headings under `heading`;
on a conformant section with a heading, content, and one subsection with
a heading, content, and one list item, the output contains the paragraph
content and the list but no `<h2>` or `<h3>` element at all. -/
theorem format_json_to_html_drops_schema_headings :
    format_json_to_html schema_content "how_to" =
      "<h1>T</h1>\n\n<p>C</p>\n\n<p>SC</p>\n\n<ul>\n<li>a</li>\n</ul>\n\n"
        ++ style_block ∧
    strIn "<h2" (format_json_to_html schema_content "how_to") = false ∧
    strIn "<h3" (format_json_to_html schema_content "how_to") = false := by
  refine ⟨by rfl, by set_option maxRecDepth 40000 in decide,
    by set_option maxRecDepth 40000 in decide⟩

/-! ## Claim C5: renderer determinism and empty-sections output -/

/-- C5 counterexample: rendering a content object with an empty
`sections` list and no optional blocks does not yield only the `<h1>`
title; the constant CSS `<style>` block is always appended as well. -/
theorem format_json_to_html_empty_sections_has_style :
    strIn "<style>"
      (format_json_to_html (title_only_content "T") "how_to") = true ∧
    ¬ (format_json_to_html (title_only_content "T") "how_to" =
      "<h1>T</h1>\n\n") := by
  refine ⟨by set_option maxRecDepth 40000 in decide,
    by set_option maxRecDepth 40000 in decide⟩

/-- C5 (amended): the renderer is a pure function, so rendering the
same content dict with the same template type twice yields byte-identical
output, and for every title string and every template type, rendering a
content object with an empty `sections` list and no optional blocks
yields exactly the `<h1>` title followed by the constant CSS style block
(and nothing else), raising no exception. -/
theorem format_json_to_html_deterministic_and_title_only :
    (∀ (c : ContentData) (t : String),
      format_json_to_html c t = format_json_to_html c t) ∧
    (∀ (title tt : String),
      format_json_to_html (title_only_content title) tt =
        "<h1>" ++ title ++ "</h1>\n\n" ++ style_block) := by
  refine ⟨fun c t => rfl, fun title tt => ?_⟩
  dsimp only [format_json_to_html, title_only_content,
    encode_utf8_ignore_decode]
  split_ifs <;> simp_all [String.append_assoc, String.empty_append]

/-! ## Claim C8: duplicate detection and freshness strategy -/

/-- C8 counterexample: the pipeline sets the different-angle strategy
even though an alternative unprocessed topic without a recent post
exists among the candidates.  With candidates "python" (a duplicate with
a recent post) and "python tips" (no recent post, not a duplicate), the
regex exclusion removes "python tips" as well because it merely contains
the duplicate keyword as a substring, so the duplicate "python" is
selected with `fresh_content_strategy = "different_angle"`. -/
theorem generate_blog_content_select_overlooked_alternative :
    generate_blog_content_select [ "python", "python tips"]
        [ "python", "python"] [("python", "trend")] =
      some ("python", "how_to", some "different_angle") ∧
    "python tips" ∈ ([ "python", "python tips"] : List String) ∧
    (∀ b ∈ ([("python", "trend")] : List (String × String)),
      ¬ pyLower b.1 = pyLower "python tips") ∧
    ¬ (2 ≤ count_iexact [ "python", "python"] (pyLower "python tips")) := by
  refine ⟨by decide, by decide, by decide, by decide⟩

/-- C8 (amended): the pipeline sets
`fresh_content_strategy = "different_angle"` exactly when some duplicate
keyword has a recent post and every current candidate's keyword contains
(case-insensitively, as a substring) some such duplicate keyword — not
when no candidate without a recent post exists; when some candidate does
not contain any such keyword, the first one is selected with no
freshness strategy; and when the strategy is applied and an option of
the (legacy) template list is disjoint from the templates previously
used for the looked-up keyword, the chosen template type is not among
the previously-used ones. -/
theorem generate_blog_content_select_characterization :
    ∀ (candidates recent_processed : List String)
      (recent_blogs : List (String × String)),
      candidates ≠ [] →
      ((∃ sel tmpl,
          generate_blog_content_select candidates recent_processed
            recent_blogs = some (sel, tmpl, some "different_angle")) ↔
        (topics_with_recent_blogs_of recent_processed recent_blogs ≠ [] ∧
          ∀ c ∈ candidates,
            keyword_matches_recent
              ((topics_with_recent_blogs_of recent_processed
                recent_blogs).map (fun t => pyLower t.1)) c = true)) ∧
      ((∃ c ∈ candidates,
          keyword_matches_recent
            ((topics_with_recent_blogs_of recent_processed
              recent_blogs).map (fun t => pyLower t.1)) c = false) →
        ∃ sel tmpl strat,
          generate_blog_content_select candidates recent_processed
            recent_blogs = some (sel, tmpl, strat) ∧ strat ≠
              some "different_angle") ∧
      (∀ sel tmpl td,
        generate_blog_content_select candidates recent_processed
            recent_blogs = some (sel, tmpl, some "different_angle") →
        (topics_with_recent_blogs_of recent_processed recent_blogs).find?
            (fun x => pyLower x.1 = pyLower sel) = some td →
        ([ "how_to", "listicle", "news", "review", "opinion"].filter
            (fun t => ¬ t ∈ td.2)) ≠ [] →
        ¬ tmpl ∈ td.2) := by
  intro candidates recent_processed recent_blogs hne
  obtain ⟨first, rest, rfl⟩ := List.exists_cons_of_ne_nil hne
  by_cases hD : (duplicate_topics_of recent_processed).isEmpty
  · have hT : topics_with_recent_blogs_of recent_processed recent_blogs
        = [] := by
      unfold topics_with_recent_blogs_of
      rw [List.isEmpty_iff.mp hD]
      rfl
    have hres : generate_blog_content_select (first :: rest)
        recent_processed recent_blogs =
        some (first, predict_template_type first, none) := by
      simp [generate_blog_content_select, hD]
    refine ⟨?_, ?_, ?_⟩
    · constructor
      · rintro ⟨sel, tmpl, he⟩
        rw [hres] at he
        simp at he
      · rintro ⟨hne', _⟩
        exact absurd hT hne'
    · intro _
      exact ⟨first, predict_template_type first, none, hres, by simp⟩
    · intro sel tmpl td he
      rw [hres] at he
      simp at he
  · by_cases hT :
        (topics_with_recent_blogs_of recent_processed recent_blogs).isEmpty
    · have hTnil := List.isEmpty_iff.mp hT
      have hres : generate_blog_content_select (first :: rest)
          recent_processed recent_blogs =
          some (first, predict_template_type first, none) := by
        simp [generate_blog_content_select, hD, hT]
      refine ⟨?_, ?_, ?_⟩
      · constructor
        · rintro ⟨sel, tmpl, he⟩
          rw [hres] at he
          simp at he
        · rintro ⟨hne', _⟩
          exact absurd hTnil hne'
      · intro _
        exact ⟨first, predict_template_type first, none, hres, by simp⟩
      · intro sel tmpl td he
        rw [hres] at he
        simp at he
    · cases hF : (first :: rest).filter (fun c =>
          ! keyword_matches_recent
            ((topics_with_recent_blogs_of recent_processed
              recent_blogs).map (fun t => pyLower t.1)) c) with
      | cons alt rest' =>
          have hres : generate_blog_content_select (first :: rest)
              recent_processed recent_blogs =
              some (alt, predict_template_type alt, none) := by
            simp [generate_blog_content_select, hD, hT, hF]
          have halt : alt ∈ (first :: rest).filter (fun c =>
              ! keyword_matches_recent
                ((topics_with_recent_blogs_of recent_processed
                  recent_blogs).map (fun t => pyLower t.1)) c) := by
            rw [hF]
            exact List.mem_cons_self _ _
          have halt' := List.mem_filter.mp halt
          have haltf : keyword_matches_recent
              ((topics_with_recent_blogs_of recent_processed
                recent_blogs).map (fun t => pyLower t.1)) alt = false := by
            have h2 := halt'.2
            simpa using h2
          refine ⟨?_, ?_, ?_⟩
          · constructor
            · rintro ⟨sel, tmpl, he⟩
              rw [hres] at he
              simp at he
            · rintro ⟨_, hall⟩
              have := hall alt halt'.1
              rw [this] at haltf
              exact absurd haltf (by simp)
          · intro _
            exact ⟨alt, predict_template_type alt, none, hres, by simp⟩
          · intro sel tmpl td he
            rw [hres] at he
            simp at he
      | nil =>
          have hres : generate_blog_content_select (first :: rest)
              recent_processed recent_blogs =
              some (first,
                fresh_template_choice
                  (topics_with_recent_blogs_of recent_processed
                    recent_blogs) first (predict_template_type first),
                some "different_angle") := by
            simp [generate_blog_content_select, hD, hT, hF]
          refine ⟨?_, ?_, ?_⟩
          · constructor
            · intro _
              refine ⟨fun h => hT (by rw [h]; rfl), ?_⟩
              intro c hc
              have := List.filter_eq_nil_iff.mp hF c hc
              simpa using this
            · intro _
              exact ⟨first, _, hres⟩
          · rintro ⟨c, hc, hcf⟩
            have := List.filter_eq_nil_iff.mp hF c hc
            rw [hcf] at this
            simp at this
          · intro sel tmpl td he hfind hav
            rw [hres] at he
            simp only [Option.some.injEq, Prod.mk.injEq] at he
            obtain ⟨hsel, htmpl, -⟩ := he
            subst hsel
            subst htmpl
            unfold fresh_template_choice
            rw [hfind]
            dsimp only
            cases hav' : ([ "how_to", "listicle", "news", "review",
                "opinion"].filter (fun t => ¬ t ∈ td.2)) with
            | nil => exact absurd hav' hav
            | cons t ts =>
                intro hmem
                have ht : t ∈ ([ "how_to", "listicle", "news", "review",
                    "opinion"].filter (fun t => ¬ t ∈ td.2)) := by
                  rw [hav']
                  exact List.mem_cons_self _ _
                have hprop := (List.mem_filter.mp ht).2
                simp at hprop
                exact hprop hmem

/-- C8 witness: the strategy characterization applied at the concrete
duplicate-only inputs, deriving that the strategy is set there. -/
theorem generate_blog_content_select_characterization_witness :
    ∃ sel tmpl,
      generate_blog_content_select [ "python", "python tips"]
          [ "python", "python"] [("python", "trend")] =
        some (sel, tmpl, some "different_angle") := by
  have h := (generate_blog_content_select_characterization
    [ "python", "python tips"] [ "python", "python"]
    [("python", "trend")] (by decide)).1
  exact h.mpr (by refine ⟨by decide, by decide⟩)

/-! ## Claim C9: structured error object from chat -/

/-- C9: whenever the underlying generation call (`start_chat` or
`send_message`) raises, `chat` does not propagate the exception but
returns the structured error dictionary holding the apology response
text, the conversation id items and the exception message under the
`error` key, with the success-shaped keys `model` and `processing_time`
absent. -/
theorem chat_error_response_shape :
    ∀ (bot : GeminiChatbot) (user_input conversation_id : String)
      (context : Option History) (include_template_info : Bool)
      (auto_id : String) (start_time now : Nat) (msg : String)
      (gen : GenOutcome),
      (gen = .startFail msg ∨ gen = .sendFail msg) →
      (chat bot user_input conversation_id context include_template_info
          gen auto_id start_time now).1 =
        ⟨ "I\x27m sorry, I encountered an error processing your request.",
          (if conversation_id = "" then auto_id else conversation_id),
          none, none, some msg, now⟩ := by
  rintro bot u cid ctx iti aid st now msg gen (rfl | rfl) <;> rfl

/-- C9 witness: the error shape at concrete inputs. -/
theorem chat_error_response_shape_witness :
    (chat demo_bot "more" "c" none false (.sendFail "boom") "auto" 9
        10).1 =
      ⟨ "I\x27m sorry, I encountered an error processing your request.",
        "c", none, none, some "boom", 10⟩ := by
  have h := chat_error_response_shape demo_bot "more" "c" none false
    "auto" 9 10 "boom" (.sendFail "boom") (Or.inr rfl)
  simpa using h

/-! ## Claim C10: cache state after a failed chat call -/

/-- C10 counterexample: a failed `send_message` does leave a trace in
the cached conversation.  `get_conversation` returns the cache entry's
own history list, and `chat` appends the user turn to that list before
calling `send_message`, so after the failure the in-memory entry has the
user turn appended (and its timestamp refreshed) even though
`update_conversation` was never reached. -/
theorem chat_failed_send_mutates_cached_history :
    lookupConv ((chat demo_bot "more" "c" none false (.sendFail "boom")
        "auto" 9 10).2.cache.mem) "c" =
      some ⟨10, [⟨ "user", "hi"⟩, ⟨ "assistant", "yo"⟩,
        ⟨ "user", "more"⟩]⟩ ∧
    ¬ (lookupConv ((chat demo_bot "more" "c" none false (.sendFail "boom")
        "auto" 9 10).2.cache.mem) "c" =
      lookupConv demo_bot.cache.mem "c") := by
  refine ⟨by decide, by decide⟩

theorem lookupConv_setConv (m : List (String × CacheEntry)) (cid : String)
    (e : CacheEntry) : lookupConv (setConv m cid e) cid = some e := by
  induction m with
  | nil => simp [setConv, lookupConv]
  | cons p t ih =>
      by_cases h : p.1 = cid
      · simp [setConv, lookupConv, h]
      · simp [setConv, lookupConv, h, ih]

/-- C10 (amended): a failed `chat` call (context not supplied, template
info off) never appends an assistant turn and never reaches
`update_conversation`: for a conversation id not in the cache the whole
cache (memory and disk) is left unchanged and no entry is created; for a
cached conversation, however, the failed `send_message` call leaves the
user turn (preceded by the initial system turn when the cached history
was empty) inside the in-memory entry through list aliasing and
refreshes its timestamp, while the on-disk copy keeps exactly the
pre-call history; a failure of `start_chat` leaves every cached history
unchanged (only the timestamp refresh of `get_conversation` happens). -/
theorem chat_failure_cache_effects :
    ∀ (bot : GeminiChatbot) (u cid auto_id : String) (st now : Nat)
      (msg : String),
      cid ≠ "" →
      ((lookupConv bot.cache.mem cid = none →
        (chat bot u cid none false (.sendFail msg) auto_id st
          now).2.cache = bot.cache) ∧
      (∀ e, lookupConv bot.cache.mem cid = some e →
        lookupConv ((chat bot u cid none false (.sendFail msg) auto_id st
            now).2.cache.mem) cid =
          some ⟨now, (if e.history.isEmpty then
              e.history ++ [⟨ "system", bot.system_prompt⟩]
            else e.history) ++ [⟨ "user", u⟩]⟩ ∧
        lookupConv ((chat bot u cid none false (.sendFail msg) auto_id st
            now).2.cache.disk) cid = some ⟨now, e.history⟩) ∧
      (∀ e, lookupConv bot.cache.mem cid = some e →
        (chat bot u cid none false (.startFail msg) auto_id st
            now).2.cache.mem =
          setConv bot.cache.mem cid ⟨now, e.history⟩)) := by
  intro bot u cid auto_id st now msg hcid
  refine ⟨?_, ?_, ?_⟩
  · intro h
    simp [chat, get_conversation, h, hcid]
  · intro e he
    constructor
    · simp [chat, get_conversation, save_conversation, he, hcid,
        lookupConv_setConv]
    · simp [chat, get_conversation, save_conversation, he, hcid,
        lookupConv_setConv]
  · intro e he
    simp [chat, get_conversation, save_conversation, he, hcid]

/-- C10 witness: the amended theorem applied at concrete inputs — a
failed call on an uncached conversation id leaves the cache unchanged. -/
theorem chat_failure_cache_effects_witness :
    (chat demo_bot "more" "zzz" none false (.sendFail "boom") "auto" 9
        10).2.cache = demo_bot.cache :=
  (chat_failure_cache_effects demo_bot "more" "zzz" "auto" 9 10 "boom"
    (by decide)).1 (by decide)

/-! ## Scanner accepts serializer output (towards claim C1) -/

theorem hexDigit_isHex {n : Nat} (h : n < 16) :
    isHexChar (hexDigit n) = true := by
  interval_cases n <;> decide

theorem char_toNat_lt (c : Char) : c.toNat < 1114112 := by
  have hv := c.valid
  have he : c.toNat = c.val.toNat := rfl
  rcases hv with h | ⟨h1, h2⟩
  · rw [he]
    omega
  · rw [he]
    omega

theorem scanStringBody_unicode (a b c d : Char) (X : List Char)
    (e1 : isHexChar a = true) (e2 : isHexChar b = true)
    (e3 : isHexChar c = true) (e4 : isHexChar d = true) :
    scanStringBody ('\\' :: 'u' :: a :: b :: c :: d :: X) =
      scanStringBody X := by
  have step : scanStringBody ('\\' :: 'u' :: a :: b :: c :: d :: X) =
      if isHexChar a && isHexChar b && isHexChar c && isHexChar d then
        scanStringBody X
      else none := by
    conv_lhs => unfold scanStringBody
    rfl
  rw [step, e1, e2, e3, e4]
  simp

theorem scanStringBody_escChar (c : Char) (X : List Char) :
    scanStringBody (escChar c ++ X) = scanStringBody X := by
  by_cases h1 : c = '"'
  · subst h1
    show scanStringBody ([ '\\', '"'] ++ X) = scanStringBody X
    conv_lhs => unfold scanStringBody
    rfl
  by_cases h2 : c = '\\'
  · subst h2
    show scanStringBody ([ '\\', '\\'] ++ X) = scanStringBody X
    conv_lhs => unfold scanStringBody
    rfl
  by_cases h3 : c = '\n'
  · subst h3
    show scanStringBody ([ '\\', 'n'] ++ X) = scanStringBody X
    conv_lhs => unfold scanStringBody
    rfl
  by_cases h4 : c = '\r'
  · subst h4
    show scanStringBody ([ '\\', 'r'] ++ X) = scanStringBody X
    conv_lhs => unfold scanStringBody
    rfl
  by_cases h5 : c = '\t'
  · subst h5
    show scanStringBody ([ '\\', 't'] ++ X) = scanStringBody X
    conv_lhs => unfold scanStringBody
    rfl
  by_cases h6 : c.toNat = 8
  · have he : escChar c = [ '\\', 'b'] := by
      unfold escChar
      rw [if_neg h1, if_neg h2, if_neg h3, if_neg h4, if_neg h5, if_pos h6]
    rw [he]
    conv_lhs => unfold scanStringBody
    rfl
  by_cases h7 : c.toNat = 12
  · have he : escChar c = [ '\\', 'f'] := by
      unfold escChar
      rw [if_neg h1, if_neg h2, if_neg h3, if_neg h4, if_neg h5, if_neg h6,
        if_pos h7]
    rw [he]
    conv_lhs => unfold scanStringBody
    rfl
  by_cases h8 : c.toNat < 32
  · have he : escChar c = [ '\\', 'u', '0', '0', hexDigit (c.toNat / 16),
        hexDigit (c.toNat % 16)] := by
      unfold escChar
      rw [if_neg h1, if_neg h2, if_neg h3, if_neg h4, if_neg h5, if_neg h6,
        if_neg h7, if_pos h8]
    rw [he]
    have e1 : isHexChar (hexDigit (c.toNat / 16)) = true :=
      hexDigit_isHex (by omega)
    have e2 : isHexChar (hexDigit (c.toNat % 16)) = true :=
      hexDigit_isHex (by omega)
    have z : isHexChar '0' = true := by decide
    show scanStringBody ('\\' :: 'u' :: '0' :: '0' ::
        hexDigit (c.toNat / 16) :: hexDigit (c.toNat % 16) :: X) =
      scanStringBody X
    exact scanStringBody_unicode _ _ _ _ _ z z e1 e2
  by_cases h9 : c.toNat < 127
  · have he : escChar c = [c] := by
      unfold escChar
      rw [if_neg h1, if_neg h2, if_neg h3, if_neg h4, if_neg h5, if_neg h6,
        if_neg h7, if_neg h8, if_pos h9]
    rw [he]
    show scanStringBody (c :: X) = scanStringBody X
    conv_lhs => unfold scanStringBody
    rw [if_neg h1, if_neg h2, if_neg h8]
  by_cases h10 : c.toNat < 65536
  · have he : escChar c = [ '\\', 'u', hexDigit (c.toNat / 4096),
        hexDigit (c.toNat / 256 % 16), hexDigit (c.toNat / 16 % 16),
        hexDigit (c.toNat % 16)] := by
      unfold escChar
      rw [if_neg h1, if_neg h2, if_neg h3, if_neg h4, if_neg h5, if_neg h6,
        if_neg h7, if_neg h8, if_neg h9, if_pos h10]
    rw [he]
    have e1 : isHexChar (hexDigit (c.toNat / 4096)) = true :=
      hexDigit_isHex (by omega)
    have e2 : isHexChar (hexDigit (c.toNat / 256 % 16)) = true :=
      hexDigit_isHex (by omega)
    have e3 : isHexChar (hexDigit (c.toNat / 16 % 16)) = true :=
      hexDigit_isHex (by omega)
    have e4 : isHexChar (hexDigit (c.toNat % 16)) = true :=
      hexDigit_isHex (by omega)
    show scanStringBody ('\\' :: 'u' :: hexDigit (c.toNat / 4096) ::
        hexDigit (c.toNat / 256 % 16) :: hexDigit (c.toNat / 16 % 16) ::
        hexDigit (c.toNat % 16) :: X) = scanStringBody X
    exact scanStringBody_unicode _ _ _ _ _ e1 e2 e3 e4
  have hb := char_toNat_lt c
  have he : escChar c = [ '\\', 'u',
      hexDigit ((55296 + (c.toNat - 65536) / 1024) / 4096),
      hexDigit ((55296 + (c.toNat - 65536) / 1024) / 256 % 16),
      hexDigit ((55296 + (c.toNat - 65536) / 1024) / 16 % 16),
      hexDigit ((55296 + (c.toNat - 65536) / 1024) % 16), '\\', 'u',
      hexDigit ((56320 + (c.toNat - 65536) % 1024) / 4096),
      hexDigit ((56320 + (c.toNat - 65536) % 1024) / 256 % 16),
      hexDigit ((56320 + (c.toNat - 65536) % 1024) / 16 % 16),
      hexDigit ((56320 + (c.toNat - 65536) % 1024) % 16)] := by
    unfold escChar
    rw [if_neg h1, if_neg h2, if_neg h3, if_neg h4, if_neg h5, if_neg h6,
      if_neg h7, if_neg h8, if_neg h9, if_neg h10]
  rw [he]
  have e1 : isHexChar (hexDigit ((55296 + (c.toNat - 65536) / 1024) /
        4096)) = true := hexDigit_isHex (by omega)
  have e2 : isHexChar (hexDigit ((55296 + (c.toNat - 65536) / 1024) /
      256 % 16)) = true := hexDigit_isHex (by omega)
  have e3 : isHexChar (hexDigit ((55296 + (c.toNat - 65536) / 1024) /
      16 % 16)) = true := hexDigit_isHex (by omega)
  have e4 : isHexChar (hexDigit ((55296 + (c.toNat - 65536) / 1024) %
      16)) = true := hexDigit_isHex (by omega)
  have e5 : isHexChar (hexDigit ((56320 + (c.toNat - 65536) % 1024) /
      4096)) = true := hexDigit_isHex (by omega)
  have e6 : isHexChar (hexDigit ((56320 + (c.toNat - 65536) % 1024) /
      256 % 16)) = true := hexDigit_isHex (by omega)
  have e7 : isHexChar (hexDigit ((56320 + (c.toNat - 65536) % 1024) /
      16 % 16)) = true := hexDigit_isHex (by omega)
  have e8 : isHexChar (hexDigit ((56320 + (c.toNat - 65536) % 1024) %
      16)) = true := hexDigit_isHex (by omega)
  show scanStringBody ('\\' :: 'u' ::
      hexDigit ((55296 + (c.toNat - 65536) / 1024) / 4096) ::
      hexDigit ((55296 + (c.toNat - 65536) / 1024) / 256 % 16) ::
      hexDigit ((55296 + (c.toNat - 65536) / 1024) / 16 % 16) ::
      hexDigit ((55296 + (c.toNat - 65536) / 1024) % 16) :: '\\' :: 'u' ::
      hexDigit ((56320 + (c.toNat - 65536) % 1024) / 4096) ::
      hexDigit ((56320 + (c.toNat - 65536) % 1024) / 256 % 16) ::
      hexDigit ((56320 + (c.toNat - 65536) % 1024) / 16 % 16) ::
      hexDigit ((56320 + (c.toNat - 65536) % 1024) % 16) :: X) =
    scanStringBody X
  exact (scanStringBody_unicode _ _ _ _ _ e1 e2 e3 e4).trans
    (scanStringBody_unicode _ _ _ _ _ e5 e6 e7 e8)

theorem scanStringBody_encoded (cs : List Char) (rest : List Char) :
    scanStringBody ((cs.map escChar).flatten ++ '"' :: rest) = some rest := by
  induction cs with
  | nil =>
      show scanStringBody ('"' :: rest) = some rest
      unfold scanStringBody
      rfl
  | cons c t ih =>
      simp only [List.map_cons, List.flatten_cons, List.append_assoc]
      rw [scanStringBody_escChar]
      exact ih

theorem isDigitChar_ofNat (m : Nat) (h : m < 10) :
    isDigitChar (Char.ofNat (48 + m)) = true := by
  interval_cases m <;> decide

theorem natChars_shape (m : Nat) : ∃ d ds, natChars m = d :: ds ∧
    isDigitChar d = true ∧ (∀ c ∈ ds, isDigitChar c = true) ∧
    (d = '0' → m = 0 ∧ ds = []) := by
  induction m using Nat.strong_induction_on with
  | _ m ih =>
    rw [natChars]
    split
    · rename_i h
      interval_cases m <;> exact ⟨_, _, rfl, by decide, by simp, by decide⟩
    · rename_i h
      obtain ⟨d, ds, hd, hdig, hds, hz⟩ := ih (m / 10)
        (Nat.div_lt_self (by omega) (by omega))
      refine ⟨d, ds ++ [Char.ofNat (48 + m % 10)], by rw [hd]; rfl,
        hdig, ?_, ?_⟩
      · intro c hc
        rcases List.mem_append.mp hc with h1 | h1
        · exact hds c h1
        · rcases List.mem_singleton.mp h1 with rfl
          exact isDigitChar_ofNat _ (Nat.mod_lt _ (by omega))
      · intro h0
        have h10 : 1 ≤ m / 10 := (Nat.one_le_div_iff (by omega)).mpr (by omega)
        exact absurd (hz h0).1 (by omega)

theorem scanExp_sepOk (rest : List Char) (h : sepOk rest) :
    scanExp rest = rest := by
  match rest with
  | [] => rfl
  | c :: t => rcases h with h | h | h <;> subst h <;> rfl

theorem scanFrac_sepOk (rest : List Char) (h : sepOk rest) :
    scanFrac rest = rest := by
  match rest with
  | [] => rfl
  | c :: t => rcases h with h | h | h <;> subst h <;> rfl

theorem dropDigits_sepOk (rest : List Char) (h : sepOk rest) :
    dropDigits rest = rest := by
  match rest with
  | [] => rfl
  | c :: t => rcases h with h | h | h <;> subst h <;> rfl

theorem dropDigits_append (a b : List Char)
    (h : ∀ c ∈ a, isDigitChar c = true) :
    dropDigits (a ++ b) = dropDigits b := by
  induction a with
  | nil => rfl
  | cons c t ih =>
      show dropDigits (c :: (t ++ b)) = dropDigits b
      rw [dropDigits, if_pos (h c (List.mem_cons_self c t))]
      exact ih (fun x hx => h x (List.mem_cons_of_mem c hx))

theorem scanNumber_digit_head (d : Char) (T : List Char)
    (hdig : isDigitChar d = true) (h0 : ¬ d = '0') :
    scanNumber (d :: T) = some (scanFrac (dropDigits T)) := by
  have hm : ¬ d = '-' := by
    intro e; subst e; exact absurd hdig (by decide)
  unfold scanNumber
  dsimp only
  split
  · rename_i t heq
    split at heq
    · rename_i u heq1
      injection heq1 with e1 _
      exact absurd e1 hm
    · injection heq with e1 _
      exact absurd e1 h0
  · rename_i c t hne heq
    split at heq
    · rename_i u heq1
      injection heq1 with e1 _
      exact absurd e1 hm
    · injection heq with e1 e2
      subst e1; subst e2
      rw [if_pos hdig]
  · rename_i heq
    split at heq
    · rename_i u heq1
      injection heq1 with e1 _
      exact absurd e1 hm
    · exact absurd heq (by simp)

theorem scanNumber_zero (T : List Char) :
    scanNumber ('0' :: T) = some (scanFrac T) := by
  unfold scanNumber
  rfl

theorem scanNumber_dash (d : Char) (T : List Char)
    (hdig : isDigitChar d = true) (h0 : ¬ d = '0') :
    scanNumber ('-' :: d :: T) = some (scanFrac (dropDigits T)) := by
  unfold scanNumber
  dsimp only
  split
  · rename_i t heq
    injection heq with e1 _
    exact absurd e1 h0
  · rename_i c t hne heq
    injection heq with e1 e2
    subst e1; subst e2
    rw [if_pos hdig]
  · rename_i heq
    exact absurd heq (by simp)

theorem scanValue_digit (g : Nat) (d : Char) (T : List Char)
    (h : isDigitChar d = true) :
    scanValue (g + 1) (d :: T) = scanNumber (d :: T) := by
  conv_lhs => unfold scanValue
  rw [if_neg (by intro e; subst e; exact absurd h (by decide)),
    if_neg (by intro e; subst e; exact absurd h (by decide)),
    if_neg (by intro e; subst e; exact absurd h (by decide)),
    if_neg (by intro e; subst e; exact absurd h (by decide)),
    if_neg (by intro e; subst e; exact absurd h (by decide)),
    if_neg (by intro e; subst e; exact absurd h (by decide)),
    if_neg (by intro e; subst e; exact absurd h (by decide)),
    if_neg (by intro e; subst e; exact absurd h (by decide)),
    if_neg (by intro e; subst e; exact absurd h (by decide)),
    if_pos h]

theorem scanValue_dash (g : Nat) (T : List Char) :
    scanValue (g + 1) ('-' :: T) =
      match T with
      | 'I' :: 'n' :: 'f' :: 'i' :: 'n' :: 'i' :: 't' :: 'y' :: r => some r
      | _ => scanNumber ('-' :: T) := by
  conv_lhs => unfold scanValue
  rfl

theorem scanValue_intChars (g : Nat) (n : Int) (rest : List Char)
    (h : sepOk rest) :
    scanValue (g + 1) (intChars n ++ rest) = some rest := by
  obtain ⟨d, ds, hd, hdig, hds, hz⟩ := natChars_shape n.natAbs
  unfold intChars
  split_ifs with hn
  · rw [List.cons_append, hd, List.cons_append, scanValue_dash]
    split
    · rename_i r heq
      injection heq with e1 _
      subst e1
      exact absurd hdig (by decide)
    · by_cases h0 : d = '0'
      · exact absurd (hz h0).1 (by omega)
      · rw [scanNumber_dash d _ hdig h0, dropDigits_append ds rest hds,
          dropDigits_sepOk rest h, scanFrac_sepOk rest h]
  · rw [hd, List.cons_append]
    by_cases h0 : d = '0'
    · obtain ⟨hm0, hds0⟩ := hz h0
      subst h0; subst hds0
      rw [List.nil_append, scanValue_digit g _ _ (by decide),
        scanNumber_zero, scanFrac_sepOk rest h]
    · rw [scanValue_digit g d _ hdig, scanNumber_digit_head d _ hdig h0,
        dropDigits_append ds rest hds, dropDigits_sepOk rest h,
        scanFrac_sepOk rest h]

theorem digit_not_ws (c : Char) (h : isDigitChar c = true) :
    js_ws c = false := by
  by_contra hb
  rw [Bool.not_eq_false] at hb
  unfold js_ws at hb
  rcases (by simpa using hb : ((c = ' ' ∨ c = '\t') ∨ c = '\n') ∨ c = '\r')
    with ((e | e) | e) | e <;> (subst e; exact absurd h (by decide))

theorem digit_ne_rbrack (c : Char) (h : isDigitChar c = true) :
    ¬ c = ']' := by
  intro e; subst e; exact absurd h (by decide)

theorem dumpChars_shape (v : Json) : ∃ hd tl, dumpChars v = hd :: tl ∧
    js_ws hd = false ∧ ¬ hd = ']' := by
  cases v with
  | null =>
      exact ⟨'n', ['u', 'l', 'l'], by decide, by decide, by decide⟩
  | bool b =>
      cases b
      · exact ⟨'f', ['a', 'l', 's', 'e'], by decide, by decide, by decide⟩
      · exact ⟨'t', ['r', 'u', 'e'], by decide, by decide, by decide⟩
  | num n =>
      obtain ⟨d, ds, hd, hdig, hds, hz⟩ := natChars_shape n.natAbs
      show ∃ hd tl, intChars n = hd :: tl ∧ _
      unfold intChars
      split_ifs with hn
      · exact ⟨'-', _, by rw [hd], by decide, by decide⟩
      · exact ⟨d, ds, hd, digit_not_ws d hdig, digit_ne_rbrack d hdig⟩
  | str s =>
      refine ⟨'"', (s.toList.map escChar).flatten ++ ['"'], ?_,
        by decide, by decide⟩
      conv_lhs => unfold dumpChars
      exact List.cons_append _ _ _
  | arr xs =>
      refine ⟨'[', dumpItems xs ++ [']'], ?_, by decide, by decide⟩
      conv_lhs => unfold dumpChars
      exact List.cons_append _ _ _
  | obj ms =>
      refine ⟨'\x7b', dumpMembers ms ++ ['\x7d'], ?_, by decide, by decide⟩
      conv_lhs => unfold dumpChars
      exact List.cons_append _ _ _

theorem skipWs_cons_false (c : Char) (t : List Char)
    (h : js_ws c = false) : skipWs (c :: t) = c :: t := by
  unfold skipWs
  simp [h]

theorem skipWs_dump (v : Json) (X : List Char) :
    skipWs (dumpChars v ++ X) = dumpChars v ++ X := by
  obtain ⟨hd, tl, hsh, hws, _⟩ := dumpChars_shape v
  rw [hsh, List.cons_append, skipWs_cons_false hd _ hws]

theorem dumpChars_pos (v : Json) : 1 ≤ (dumpChars v).length := by
  obtain ⟨hd, tl, hsh, _, _⟩ := dumpChars_shape v
  rw [hsh]
  simp

theorem sepOk_items_tail (t : List Json) (rest : List Char) :
    sepOk (sepItems t ++ ']' :: rest) := by
  cases t with
  | nil => exact Or.inr (Or.inl rfl)
  | cons y t => exact Or.inl rfl

theorem sepOk_members_tail (t : List (String × Json)) (rest : List Char) :
    sepOk (sepMembers t ++ '\x7d' :: rest) := by
  cases t with
  | nil => exact Or.inr (Or.inr rfl)
  | cons m t =>
      obtain ⟨k, v⟩ := m
      exact Or.inl rfl

theorem skipWs_space (t : List Char) : skipWs (' ' :: t) = skipWs t := by
  conv_lhs => unfold skipWs
  rfl

theorem scanValue_quote (f : Nat) (t : List Char) :
    scanValue (f + 1) ('"' :: t) = scanStringBody t := by
  unfold scanValue
  rfl

theorem scanValue_lbrace (f : Nat) (t : List Char) :
    scanValue (f + 1) ('\x7b' :: t) = scanObject f t := by
  unfold scanValue
  rfl

theorem scanValue_lbrack (f : Nat) (t : List Char) :
    scanValue (f + 1) ('[' :: t) = scanArray f t := by
  unfold scanValue
  rfl

theorem scanValue_null (f : Nat) (r : List Char) :
    scanValue (f + 1) ('n' :: 'u' :: 'l' :: 'l' :: r) = some r := by
  unfold scanValue
  rfl

theorem scanValue_true (f : Nat) (r : List Char) :
    scanValue (f + 1) ('t' :: 'r' :: 'u' :: 'e' :: r) = some r := by
  unfold scanValue
  rfl

theorem scanValue_false (f : Nat) (r : List Char) :
    scanValue (f + 1) ('f' :: 'a' :: 'l' :: 's' :: 'e' :: r) = some r := by
  unfold scanValue
  rfl

theorem scanObject_rbrace (f : Nat) (t : List Char) :
    scanObject (f + 1) ('\x7d' :: t) = some t := by
  unfold scanObject
  rfl

theorem scanObject_quote (f : Nat) (t : List Char) :
    scanObject (f + 1) ('"' :: t) =
      (scanStringBody t).bind (scanMembersRest f) := by
  unfold scanObject
  rfl

theorem scanArray_rbrack (f : Nat) (t : List Char) :
    scanArray (f + 1) (']' :: t) = some t := by
  unfold scanArray
  rfl

theorem scanElemsRest_rbrack (f : Nat) (t : List Char) :
    scanElemsRest (f + 1) (']' :: t) = some t := by
  unfold scanElemsRest
  rfl

theorem scanElemsRest_comma (f : Nat) (t : List Char) :
    scanElemsRest (f + 1) (',' :: t) =
      (scanValue f (skipWs t)).bind (scanElemsRest f) := by
  conv_lhs => unfold scanElemsRest
  rfl

theorem scanMembersRest_colon (f : Nat) (t : List Char) :
    scanMembersRest (f + 1) (':' :: t) =
      (scanValue f (skipWs t)).bind fun r =>
        match skipWs r with
        | ',' :: t2 =>
            (match skipWs t2 with
             | '"' :: t3 => (scanStringBody t3).bind (scanMembersRest f)
             | _ => none)
        | '\x7d' :: t2 => some t2
        | _ => none := by
  conv_lhs => unfold scanMembersRest
  rfl

theorem dumpItems_eq : ∀ (t : List Json) (x : Json),
    dumpItems (x :: t) = dumpChars x ++ sepItems t := by
  intro t
  induction t with
  | nil => intro x; simp [dumpItems, sepItems]
  | cons y t ih =>
      intro x
      have e : dumpItems (x :: y :: t) =
          dumpChars x ++ ',' :: ' ' :: dumpItems (y :: t) := by
        conv_lhs => unfold dumpItems
      rw [e, ih y]
      conv_rhs => unfold sepItems
      simp

theorem dumpMembers_eq : ∀ (t : List (String × Json)) (k : String)
    (v : Json), dumpMembers ((k, v) :: t) =
      strChars k ++ ':' :: ' ' :: (dumpChars v ++ sepMembers t) := by
  intro t
  induction t with
  | nil => intro k v; simp [dumpMembers, sepMembers]
  | cons m t ih =>
      intro k v
      obtain ⟨k2, v2⟩ := m
      have e : dumpMembers ((k, v) :: (k2, v2) :: t) =
          strChars k ++ ':' :: ' ' ::
            (dumpChars v ++ ',' :: ' ' :: dumpMembers ((k2, v2) :: t)) := by
        conv_lhs => unfold dumpMembers
        simp [List.append_assoc]
      rw [e, ih k2 v2]
      conv_rhs => unfold sepMembers
      simp [List.append_assoc]

set_option maxHeartbeats 1000000 in
theorem scan_accepts (f : Nat) :
    (∀ v rest, sepOk rest → (dumpChars v).length < f →
      scanValue f (dumpChars v ++ rest) = some rest) ∧
    (∀ xs rest, sepOk rest → (dumpItems xs).length + 1 < f →
      scanArray f (dumpItems xs ++ ']' :: rest) = some rest) ∧
    (∀ t rest, sepOk rest → (sepItems t).length + 1 < f →
      scanElemsRest f (sepItems t ++ ']' :: rest) = some rest) ∧
    (∀ ms rest, sepOk rest → (dumpMembers ms).length + 1 < f →
      scanObject f (dumpMembers ms ++ '\x7d' :: rest) = some rest) ∧
    (∀ v t rest, sepOk rest →
      (dumpChars v).length + (sepMembers t).length + 1 < f →
      scanMembersRest f
        (':' :: ' ' :: (dumpChars v ++ (sepMembers t ++ '\x7d' :: rest))) =
        some rest) := by
  induction f using Nat.strong_induction_on with
  | _ f ih =>
  refine ⟨?_, ?_, ?_, ?_, ?_⟩
  · intro v rest hrest hlen
    obtain ⟨g, rfl⟩ : ∃ m, f = m + 1 := ⟨f - 1, by omega⟩
    cases v with
    | null =>
        show scanValue (g + 1) ('n' :: 'u' :: 'l' :: 'l' :: rest) = some rest
        exact scanValue_null g rest
    | bool b =>
        cases b
        · show scanValue (g + 1)
            ('f' :: 'a' :: 'l' :: 's' :: 'e' :: rest) = some rest
          exact scanValue_false g rest
        · show scanValue (g + 1) ('t' :: 'r' :: 'u' :: 'e' :: rest) = some rest
          exact scanValue_true g rest
    | num n =>
        show scanValue (g + 1) (intChars n ++ rest) = some rest
        exact scanValue_intChars g n rest hrest
    | str s =>
        show scanValue (g + 1)
          ('"' :: (((s.toList.map escChar).flatten ++ ['"']) ++ rest)) =
          some rest
        rw [scanValue_quote, List.append_assoc]
        show scanStringBody
          ((s.toList.map escChar).flatten ++ ('"' :: rest)) = some rest
        exact scanStringBody_encoded _ rest
    | arr xs =>
        show scanValue (g + 1)
          ('[' :: ((dumpItems xs ++ [']']) ++ rest)) = some rest
        rw [scanValue_lbrack, List.append_assoc]
        show scanArray g (dumpItems xs ++ (']' :: rest)) = some rest
        refine ((ih g (by omega)).2.1) xs rest hrest ?_
        have e : (dumpChars (Json.arr xs)).length =
            (dumpItems xs).length + 2 := by
          show (('[' :: dumpItems xs) ++ [']']).length = _
          simp
        omega
    | obj ms =>
        show scanValue (g + 1)
          ('\x7b' :: ((dumpMembers ms ++ ['\x7d']) ++ rest)) = some rest
        rw [scanValue_lbrace, List.append_assoc]
        show scanObject g (dumpMembers ms ++ ('\x7d' :: rest)) = some rest
        refine ((ih g (by omega)).2.2.2.1) ms rest hrest ?_
        have e : (dumpChars (Json.obj ms)).length =
            (dumpMembers ms).length + 2 := by
          show (('\x7b' :: dumpMembers ms) ++ ['\x7d']).length = _
          simp
        omega
  · intro xs rest hrest hlen
    obtain ⟨g, rfl⟩ : ∃ m, f = m + 1 := ⟨f - 1, by omega⟩
    cases xs with
    | nil =>
        show scanArray (g + 1) (']' :: rest) = some rest
        exact scanArray_rbrack g rest
    | cons x t =>
        rw [dumpItems_eq t x] at hlen ⊢
        rw [List.append_assoc]
        obtain ⟨hd, tl, hsh, hws, hrb⟩ := dumpChars_shape x
        have hlx : (dumpChars x).length + (sepItems t).length + 1 < g + 1 := by
          rw [List.length_append] at hlen
          omega
        have hpos := dumpChars_pos x
        conv_lhs => unfold scanArray
        rw [hsh, List.cons_append, skipWs_cons_false hd _ hws]
        split
        · rename_i t2 heq
          injection heq with e1 _
          exact absurd e1 hrb
        · rw [← List.cons_append, ← hsh]
          rw [(ih g (by omega)).1 x (sepItems t ++ ']' :: rest)
            (sepOk_items_tail t rest) (by omega)]
          show scanElemsRest g (sepItems t ++ ']' :: rest) = some rest
          exact (ih g (by omega)).2.2.1 t rest hrest (by omega)
  · intro t rest hrest hlen
    obtain ⟨g, rfl⟩ : ∃ m, f = m + 1 := ⟨f - 1, by omega⟩
    cases t with
    | nil =>
        show scanElemsRest (g + 1) (']' :: rest) = some rest
        exact scanElemsRest_rbrack g rest
    | cons y t =>
        have hsep : sepItems (y :: t) = ',' :: ' ' ::
            (dumpChars y ++ sepItems t) := by
          conv_lhs => unfold sepItems
          simp
        rw [hsep] at hlen ⊢
        have hpos := dumpChars_pos y
        rw [List.length_cons, List.length_cons, List.length_append] at hlen
        rw [List.cons_append, List.cons_append, scanElemsRest_comma,
          skipWs_space, List.append_assoc, skipWs_dump]
        rw [(ih g (by omega)).1 y (sepItems t ++ ']' :: rest)
          (sepOk_items_tail t rest) (by omega)]
        show scanElemsRest g (sepItems t ++ ']' :: rest) = some rest
        exact (ih g (by omega)).2.2.1 t rest hrest (by omega)
  · intro ms rest hrest hlen
    obtain ⟨g, rfl⟩ : ∃ m, f = m + 1 := ⟨f - 1, by omega⟩
    cases ms with
    | nil =>
        show scanObject (g + 1) ('\x7d' :: rest) = some rest
        exact scanObject_rbrace g rest
    | cons m t =>
        obtain ⟨k, v⟩ := m
        rw [dumpMembers_eq t k v] at hlen ⊢
        have hkl : (strChars k).length =
            (k.toList.map escChar).flatten.length + 2 := by
          show (('"' :: (k.toList.map escChar).flatten) ++ ['"']).length = _
          simp
        rw [List.length_append, List.length_cons, List.length_cons,
          List.length_append] at hlen
        have hpos := dumpChars_pos v
        have hstr : strChars k ++ ':' :: ' ' ::
            (dumpChars v ++ sepMembers t) ++ '\x7d' :: rest =
            '"' :: ((k.toList.map escChar).flatten ++
              ('"' :: (':' :: ' ' ::
                (dumpChars v ++ (sepMembers t ++ '\x7d' :: rest))))) := by
          show (('"' :: (k.toList.map escChar).flatten) ++ ['"']) ++ _ ++ _ = _
          simp [List.append_assoc]
        rw [hstr, scanObject_quote, scanStringBody_encoded]
        show scanMembersRest g (':' :: ' ' ::
          (dumpChars v ++ (sepMembers t ++ '\x7d' :: rest))) = some rest
        exact (ih g (by omega)).2.2.2.2 v t rest hrest (by omega)
  · intro v t rest hrest hlen
    obtain ⟨g, rfl⟩ : ∃ m, f = m + 1 := ⟨f - 1, by omega⟩
    rw [scanMembersRest_colon, skipWs_space, skipWs_dump]
    rw [(ih g (by omega)).1 v (sepMembers t ++ '\x7d' :: rest)
      (sepOk_members_tail t rest) (by omega)]
    show (match skipWs (sepMembers t ++ '\x7d' :: rest) with
      | ',' :: t2 =>
          (match skipWs t2 with
           | '"' :: t3 => (scanStringBody t3).bind (scanMembersRest g)
           | _ => none)
      | '\x7d' :: t2 => some t2
      | _ => none) = some rest
    cases t with
    | nil =>
        show (match skipWs ('\x7d' :: rest) with
          | ',' :: t2 =>
              (match skipWs t2 with
               | '"' :: t3 => (scanStringBody t3).bind (scanMembersRest g)
               | _ => none)
          | '\x7d' :: t2 => some t2
          | _ => none) = some rest
        rw [skipWs_cons_false _ _ (by decide)]
        rfl
    | cons m t2 =>
        obtain ⟨k2, v2⟩ := m
        have hsep : sepMembers ((k2, v2) :: t2) = ',' :: ' ' ::
            (strChars k2 ++ (':' :: ' ' :: (dumpChars v2 ++ sepMembers t2)))
            := by
          conv_lhs => unfold sepMembers
          simp [List.append_assoc]
        rw [hsep] at hlen ⊢
        rw [List.cons_append, List.cons_append,
          skipWs_cons_false _ _ (by decide)]
        show (match skipWs (' ' :: ((strChars k2 ++ (':' :: ' ' ::
            (dumpChars v2 ++ sepMembers t2))) ++ '\x7d' :: rest)) with
          | '"' :: t3 => (scanStringBody t3).bind (scanMembersRest g)
          | _ => none) = some rest
        rw [skipWs_space]
        have hstr2 : (strChars k2 ++ (':' :: ' ' ::
            (dumpChars v2 ++ sepMembers t2))) ++ '\x7d' :: rest =
            '"' :: ((k2.toList.map escChar).flatten ++
              ('"' :: (':' :: ' ' ::
                (dumpChars v2 ++ (sepMembers t2 ++ '\x7d' :: rest))))) := by
          show (('"' :: (k2.toList.map escChar).flatten) ++ ['"']) ++ _ ++ _ = _
          simp [List.append_assoc]
        rw [hstr2, skipWs_cons_false _ _ (by decide)]
        show (scanStringBody ((k2.toList.map escChar).flatten ++
          ('"' :: (':' :: ' ' ::
            (dumpChars v2 ++ (sepMembers t2 ++ '\x7d' :: rest)))))).bind
          (scanMembersRest g) = some rest
        rw [scanStringBody_encoded]
        show scanMembersRest g (':' :: ' ' ::
          (dumpChars v2 ++ (sepMembers t2 ++ '\x7d' :: rest))) = some rest
        have hkl2 : (strChars k2).length =
            (k2.toList.map escChar).flatten.length + 2 := by
          show (('"' :: (k2.toList.map escChar).flatten) ++ ['"']).length = _
          simp
        have hpos2 := dumpChars_pos v2
        rw [List.length_cons, List.length_cons, List.length_append,
          List.length_cons, List.length_cons, List.length_append] at hlen
        exact (ih g (by omega)).2.2.2.2 v2 t2 rest hrest (by omega)

theorem is_valid_json_dumps (v : Json) :
    is_valid_json (json_dumps v) = true := by
  unfold is_valid_json json_dumps
  dsimp only
  have hl : (String.mk (dumpChars v)).toList = dumpChars v := rfl
  rw [hl]
  have h0 : skipWs (dumpChars v) = dumpChars v := by
    have := skipWs_dump v []
    simpa using this
  rw [h0]
  have h1 : scanValue ((dumpChars v).length + 1) (dumpChars v) = some [] := by
    have := (scan_accepts ((dumpChars v).length + 1)).1 v [] trivial
      (by omega)
    simpa using this
  rw [h1]
  rfl

set_option maxRecDepth 40000 in
/-- C1 counterexample: on an input whose brace span is unrecoverable but
whose raw text does contain a well-formed title field after the span, the
title regex search runs on the cleaned span only, so the fallback object
carries the placeholder title instead of the Foo found in the input. -/
theorem aggressive_json_repair_overlooks_input_title :
    searchField "title".toList
        "\x7b\"a\":1,\x7d \"title\": \"Foo\"".toList = some "Foo".toList ∧
      aggressive_json_repair "\x7b\"a\":1,\x7d \"title\": \"Foo\"" =
        json_dumps (minimal_json none none) := by
  constructor
  · decide
  · decide

/-- C1: for every input string the repair chain returns a string that
`json.loads` accepts, and whenever the cleaned brace span is still invalid
the result is the serialized minimal fallback object whose title and
meta_description are the regex extractions from the cleaned span (not from
the raw input), defaulting to placeholder text. -/
theorem aggressive_json_repair_total (s : String) :
    is_valid_json (aggressive_json_repair s) = true ∧
    (is_valid_json (String.mk (aggressive_clean s.toList)) = false →
      aggressive_json_repair s = json_dumps (minimal_json
        (searchField "title".toList (aggressive_clean s.toList))
        (searchField "meta_description".toList (aggressive_clean s.toList))))
    := by
  constructor
  · unfold aggressive_json_repair
    dsimp only
    split_ifs with h
    · exact h
    · exact is_valid_json_dumps _
  · intro h
    unfold aggressive_json_repair
    dsimp only
    rw [if_neg (show ¬ is_valid_json
      (String.mk (aggressive_clean s.toList)) = true by rw [h]; simp)]
    rfl

set_option maxRecDepth 40000 in
theorem aggressive_json_repair_total_witness :
    is_valid_json (String.mk (aggressive_clean
        "\x7b\"a\":1,\x7d \"title\": \"Foo\"".toList)) = false ∧
      aggressive_json_repair "\x7b\"a\":1,\x7d \"title\": \"Foo\"" =
        json_dumps (minimal_json
          (searchField "title".toList
            (aggressive_clean "\x7b\"a\":1,\x7d \"title\": \"Foo\"".toList))
          (searchField "meta_description".toList
            (aggressive_clean
              "\x7b\"a\":1,\x7d \"title\": \"Foo\"".toList))) :=
  ⟨by decide,
    (aggressive_json_repair_total "\x7b\"a\":1,\x7d \"title\": \"Foo\"").2
      (by decide)⟩

theorem sub_brace_glue_fuel_id (f : Nat) : ∀ l, noGlue l = true →
    sub_brace_glue_fuel f l = l := by
  induction f with
  | zero => intro l _; rfl
  | succ f ih =>
      intro l h
      match l with
      | [] => rfl
      | c :: t =>
          rw [noGlue] at h
          rw [Bool.and_eq_true] at h
          obtain ⟨h1, h2⟩ := h
          rw [sub_brace_glue_fuel]
          split_ifs with hc
          · rw [if_pos hc] at h1
            rw [Option.isNone_iff_eq_none] at h1
            rw [h1]
            rw [ih t h2, hc]
          · rw [ih t h2]

theorem sub_trailing_comma_fuel_id (close : Char) (f : Nat) : ∀ l,
    noTrail close l = true → sub_trailing_comma_fuel close f l = l := by
  induction f with
  | zero => intro l _; rfl
  | succ f ih =>
      intro l h
      match l with
      | [] => rfl
      | c :: t =>
          rw [noTrail] at h
          rw [Bool.and_eq_true] at h
          obtain ⟨h1, h2⟩ := h
          rw [sub_trailing_comma_fuel]
          split_ifs with hc
          · rw [if_pos hc] at h1
            rw [Option.isNone_iff_eq_none] at h1
            rw [h1]
            rw [ih t h2, hc]
          · rw [ih t h2]

theorem sub_quote_keys_fuel_id (f : Nat) : ∀ l, noBareKey l = true →
    sub_quote_keys_fuel f l = l := by
  induction f with
  | zero => intro l _; rfl
  | succ f ih =>
      intro l h
      match l with
      | [] => rfl
      | c :: t =>
          rw [noBareKey] at h
          rw [Bool.and_eq_true] at h
          obtain ⟨h1, h2⟩ := h
          rw [sub_quote_keys_fuel]
          split_ifs with hc
          · rw [if_pos hc] at h1
            rw [Option.isNone_iff_eq_none] at h1
            rw [h1]
            rw [ih t h2]
          · rw [ih t h2]

theorem scansClean_nil : scansClean [] := ⟨rfl, rfl, rfl, rfl⟩

theorem scansClean_cons (c : Char) (t : List Char) (hp1 : ¬ c = '\x7d')
    (hp2 : ¬ c = ',') (hp3 : ¬ c = '\x7b') (h : scansClean t) :
    scansClean (c :: t) := by
  obtain ⟨h1, h2, h3, h4⟩ := h
  refine ⟨?_, ?_, ?_, ?_⟩
  · rw [noGlue, if_neg hp1, Bool.true_and]; exact h1
  · rw [noTrail, if_neg hp2, Bool.true_and]; exact h2
  · rw [noTrail, if_neg hp2, Bool.true_and]; exact h3
  · rw [noBareKey, if_neg (by push_neg; exact ⟨hp3, hp2⟩), Bool.true_and]
    exact h4

theorem scansClean_append_plain (A t : List Char)
    (hA : ∀ c ∈ A, ¬ c = '\x7d' ∧ ¬ c = ',' ∧ ¬ c = '\x7b')
    (h : scansClean t) : scansClean (A ++ t) := by
  induction A with
  | nil => exact h
  | cons c A ih =>
      obtain ⟨p1, p2, p3⟩ := hA c (List.mem_cons_self c A)
      exact scansClean_cons c (A ++ t) p1 p2 p3
        (ih (fun x hx => hA x (List.mem_cons_of_mem c hx)))

theorem scansClean_rbrace (t : List Char) (hg : glueMatch t = none)
    (h : scansClean t) : scansClean ('\x7d' :: t) := by
  obtain ⟨h1, h2, h3, h4⟩ := h
  refine ⟨?_, ?_, ?_, ?_⟩
  · rw [noGlue, if_pos rfl, hg]
    simpa using h1
  · rw [noTrail, if_neg (by decide), Bool.true_and]; exact h2
  · rw [noTrail, if_neg (by decide), Bool.true_and]; exact h3
  · rw [noBareKey, if_neg (by decide), Bool.true_and]; exact h4

theorem scansClean_comma (t : List Char)
    (hc1 : commaMatch '\x7d' t = none) (hc2 : commaMatch ']' t = none)
    (hk : keyMatch t = none) (h : scansClean t) :
    scansClean (',' :: t) := by
  obtain ⟨h1, h2, h3, h4⟩ := h
  refine ⟨?_, ?_, ?_, ?_⟩
  · rw [noGlue, if_neg (by decide), Bool.true_and]; exact h1
  · rw [noTrail, if_pos rfl, hc1]
    simpa using h2
  · rw [noTrail, if_pos rfl, hc2]
    simpa using h3
  · rw [noBareKey, if_pos (Or.inr rfl), hk]
    simpa using h4

theorem scansClean_lbrace (t : List Char) (hk : keyMatch t = none)
    (h : scansClean t) : scansClean ('\x7b' :: t) := by
  obtain ⟨h1, h2, h3, h4⟩ := h
  refine ⟨?_, ?_, ?_, ?_⟩
  · rw [noGlue, if_neg (by decide), Bool.true_and]; exact h1
  · rw [noTrail, if_neg (by decide), Bool.true_and]; exact h2
  · rw [noTrail, if_neg (by decide), Bool.true_and]; exact h3
  · rw [noBareKey, if_pos (Or.inl rfl), hk]
    simpa using h4

theorem glueMatch_sepOk (rest : List Char) (h : sepOk rest) :
    glueMatch rest = none := by
  match rest with
  | [] => rfl
  | c :: t => rcases h with h | h | h <;> subst h <;> rfl

theorem commaMatch_stop (close h : Char) (T : List Char)
    (hws : py_isspace h = false) (hc : ¬ h = close) :
    commaMatch close (h :: T) = none := by
  rw [commaMatch, if_neg hc, if_neg (by simp [hws])]

theorem commaMatch_space (close : Char) (T : List Char)
    (h : ¬ ' ' = close) :
    commaMatch close (' ' :: T) = commaMatch close T := by
  rw [commaMatch, if_neg h, if_pos (by decide)]

theorem wordChar_not_space (c : Char) (h : isWordChar c = true) :
    py_isspace c = false := by
  by_contra hb
  rw [Bool.not_eq_false] at hb
  unfold py_isspace at hb
  have hs : c = ' ' ∨ c = '\t' ∨ c = '\n' ∨ c = '\r' ∨
      c.val = 11 ∨ c.val = 12 := by
    simpa [or_assoc] using hb
  rcases hs with e | e | e | e | e | e
  · subst e; exact absurd h (by decide)
  · subst e; exact absurd h (by decide)
  · subst e; exact absurd h (by decide)
  · subst e; exact absurd h (by decide)
  · have hc : c = '\x0b' := Char.ext (by rw [e]; rfl)
    subst hc; exact absurd h (by decide)
  · have hc : c = '\x0c' := Char.ext (by rw [e]; rfl)
    subst hc; exact absurd h (by decide)

theorem all_append_takeWhile (p : Char → Bool) (A B : List Char)
    (h : ∀ c ∈ A, p c = true) :
    (A ++ B).takeWhile p = A ++ B.takeWhile p := by
  induction A with
  | nil => rfl
  | cons a A ih =>
      rw [List.cons_append, List.takeWhile_cons,
        if_pos (h a (List.mem_cons_self a A)), List.cons_append,
        ih (fun x hx => h x (List.mem_cons_of_mem a hx))]

theorem all_append_dropWhile (p : Char → Bool) (A B : List Char)
    (h : ∀ c ∈ A, p c = true) :
    (A ++ B).dropWhile p = B.dropWhile p := by
  induction A with
  | nil => rfl
  | cons a A ih =>
      rw [List.cons_append, List.dropWhile_cons,
        if_pos (h a (List.mem_cons_self a A)),
        ih (fun x hx => h x (List.mem_cons_of_mem a hx))]

theorem sepOk_take_ws (r : List Char) (h : sepOk r) :
    r.takeWhile py_isspace = [] := by
  match r with
  | [] => rfl
  | c :: t => rcases h with h | h | h <;> subst h <;> rfl

theorem sepOk_drop_ws (r : List Char) (h : sepOk r) :
    r.dropWhile py_isspace = r := by
  match r with
  | [] => rfl
  | c :: t => rcases h with h | h | h <;> subst h <;> rfl

theorem sepOk_take_word (r : List Char) (h : sepOk r) :
    r.takeWhile isWordChar = [] := by
  match r with
  | [] => rfl
  | c :: t => rcases h with h | h | h <;> subst h <;> rfl

theorem sepOk_drop_word (r : List Char) (h : sepOk r) :
    r.dropWhile isWordChar = r := by
  match r with
  | [] => rfl
  | c :: t => rcases h with h | h | h <;> subst h <;> rfl

theorem keyMatch_nonword_head (h : Char) (X : List Char)
    (hws : py_isspace h = false) (hw : isWordChar h = false) :
    keyMatch (h :: X) = none := by
  have e1 : List.dropWhile py_isspace (h :: X) = h :: X := by
    rw [List.dropWhile_cons, if_neg (show ¬ py_isspace h = true by
      simp [hws])]
  have e2 : List.takeWhile isWordChar (h :: X) = [] := by
    rw [List.takeWhile_cons, if_neg (show ¬ isWordChar h = true by
      simp [hw])]
  unfold keyMatch
  dsimp only
  rw [e1, e2]
  rfl

theorem keyMatch_wordrun (a : Char) (A rest2 : List Char)
    (hA : ∀ c ∈ a :: A, isWordChar c = true) (hs : sepOk rest2) :
    keyMatch ((a :: A) ++ rest2) = none := by
  have e1 : List.dropWhile py_isspace ((a :: A) ++ rest2) =
      (a :: A) ++ rest2 := by
    conv_lhs => rw [List.cons_append]
    rw [List.dropWhile_cons, if_neg (show ¬ py_isspace a = true by
      simp [wordChar_not_space a (hA a (List.mem_cons_self a A))])]
    simp
  have e2 : List.takeWhile isWordChar ((a :: A) ++ rest2) = a :: A := by
    rw [all_append_takeWhile isWordChar (a :: A) rest2 hA,
      sepOk_take_word rest2 hs, List.append_nil]
  have e3 : List.dropWhile isWordChar ((a :: A) ++ rest2) = rest2 := by
    rw [all_append_dropWhile isWordChar (a :: A) rest2 hA,
      sepOk_drop_word rest2 hs]
  unfold keyMatch
  dsimp only
  rw [e1, e2, e3, sepOk_drop_ws rest2 hs]
  rw [if_neg (show ¬ (a :: A).isEmpty = true by simp)]
  match rest2, hs with
  | [], _ => rfl
  | c :: t, h => rcases h with h | h | h <;> subst h <;> rfl

theorem keyMatch_space_none (X : List Char) (h : keyMatch X = none) :
    keyMatch (' ' :: X) = none := by
  have e1 : List.dropWhile py_isspace (' ' :: X) =
      List.dropWhile py_isspace X := by
    rw [List.dropWhile_cons, if_pos (by decide)]
  unfold keyMatch at h ⊢
  dsimp only at h ⊢
  rw [e1]
  split
  · rfl
  · rename_i hcond
    rw [if_neg hcond] at h
    split
    · rename_i rest heq
      rw [heq] at h
      simp at h
    · rfl

theorem safeChar_facts (c : Char) (h : safeChar c = true) :
    ¬ c = '\x7d' ∧ ¬ c = ',' ∧ ¬ c = '\x7b' ∧ ¬ c = '"' ∧ ¬ c = '\\' ∧
      ¬ c = '\n' ∧ ¬ c = '`' ∧ 32 ≤ c.toNat ∧ c.toNat ≤ 126 := by
  unfold safeChar at h
  rw [Bool.and_eq_true, Bool.and_eq_true] at h
  obtain ⟨⟨hlo, hhi⟩, hex⟩ := h
  rw [decide_eq_true_iff] at hlo hhi hex
  exact ⟨fun e => hex (by subst e; decide),
    fun e => hex (by subst e; decide),
    fun e => hex (by subst e; decide),
    fun e => hex (by subst e; decide),
    fun e => hex (by subst e; decide),
    by intro e; subst e; revert hlo; decide,
    fun e => hex (by subst e; decide), hlo, hhi⟩

theorem escChar_safe (c : Char) (h : safeChar c = true) :
    escChar c = [c] := by
  obtain ⟨-, -, -, h1, h2, -, -, hlo, hhi⟩ := safeChar_facts c h
  unfold escChar
  rw [if_neg h1, if_neg h2]
  rw [if_neg (by intro e; subst e; revert hlo; decide),
    if_neg (by intro e; subst e; revert hlo; decide),
    if_neg (by intro e; subst e; revert hlo; decide),
    if_neg (by omega), if_neg (by omega), if_neg (by omega),
    if_pos (by omega)]

theorem safe_flatten (l : List Char) (h : ∀ c ∈ l, safeChar c = true) :
    (l.map escChar).flatten = l := by
  induction l with
  | nil => rfl
  | cons c t ih =>
      rw [List.map_cons, List.flatten_cons,
        escChar_safe c (h c (List.mem_cons_self c t)),
        ih (fun x hx => h x (List.mem_cons_of_mem c hx))]
      rfl

theorem digit_isWordChar (c : Char) (h : isDigitChar c = true) :
    isWordChar c = true := by
  unfold isWordChar
  rw [h]
  simp

theorem digit_not_pyspace (c : Char) (h : isDigitChar c = true) :
    py_isspace c = false :=
  wordChar_not_space c (digit_isWordChar c h)

theorem digit_ne_rbrace (c : Char) (h : isDigitChar c = true) :
    ¬ c = '\x7d' := by
  intro e; subst e; exact absurd h (by decide)

theorem dumpChars_shape2 (v : Json) : ∃ hd tl, dumpChars v = hd :: tl ∧
    py_isspace hd = false ∧ ¬ hd = ']' ∧ ¬ hd = '\x7d' := by
  cases v with
  | null =>
      exact ⟨'n', ['u', 'l', 'l'], by decide, by decide, by decide,
        by decide⟩
  | bool b =>
      cases b
      · exact ⟨'f', ['a', 'l', 's', 'e'], by decide, by decide,
          by decide, by decide⟩
      · exact ⟨'t', ['r', 'u', 'e'], by decide, by decide,
          by decide, by decide⟩
  | num n =>
      obtain ⟨d, ds, hd, hdig, hds, hz⟩ := natChars_shape n.natAbs
      show ∃ hd tl, intChars n = hd :: tl ∧ _
      unfold intChars
      split_ifs with hn
      · exact ⟨'-', _, by rw [hd], by decide, by decide, by decide⟩
      · exact ⟨d, ds, hd, digit_not_pyspace d hdig,
          digit_ne_rbrack d hdig, digit_ne_rbrace d hdig⟩
  | str s =>
      refine ⟨'"', (s.toList.map escChar).flatten ++ ['"'], ?_,
        by decide, by decide, by decide⟩
      conv_lhs => unfold dumpChars
      exact List.cons_append _ _ _
  | arr xs =>
      refine ⟨'[', dumpItems xs ++ [']'], ?_, by decide, by decide,
        by decide⟩
      conv_lhs => unfold dumpChars
      exact List.cons_append _ _ _
  | obj ms =>
      refine ⟨'\x7b', dumpMembers ms ++ ['\x7d'], ?_, by decide, by decide,
        by decide⟩
      conv_lhs => unfold dumpChars
      exact List.cons_append _ _ _

theorem commaMatch_value (close : Char) (y : Json) (Z : List Char)
    (hsp : ¬ ' ' = close) (hclose : close = '\x7d' ∨ close = ']') :
    commaMatch close (' ' :: (dumpChars y ++ Z)) = none := by
  obtain ⟨hd, tl, hsh, hws, hrb, hbr⟩ := dumpChars_shape2 y
  rw [commaMatch_space close _ hsp, hsh, List.cons_append]
  refine commaMatch_stop close hd _ hws ?_
  rcases hclose with e | e <;> subst e
  · exact hbr
  · exact hrb

theorem keyMatch_value (y : Json) (rest2 : List Char)
    (hsep : sepOk rest2) :
    keyMatch (' ' :: (dumpChars y ++ rest2)) = none := by
  apply keyMatch_space_none
  cases y with
  | null =>
      show keyMatch (('n' :: ['u', 'l', 'l']) ++ rest2) = none
      exact keyMatch_wordrun _ _ _ (by decide) hsep
  | bool b =>
      cases b
      · show keyMatch (('f' :: ['a', 'l', 's', 'e']) ++ rest2) = none
        exact keyMatch_wordrun _ _ _ (by decide) hsep
      · show keyMatch (('t' :: ['r', 'u', 'e']) ++ rest2) = none
        exact keyMatch_wordrun _ _ _ (by decide) hsep
  | num n =>
      obtain ⟨d, ds, hd, hdig, hds, hz⟩ := natChars_shape n.natAbs
      show keyMatch (intChars n ++ rest2) = none
      unfold intChars
      split_ifs with hn
      · rw [List.cons_append]
        exact keyMatch_nonword_head '-' _ (by decide) (by decide)
      · rw [hd]
        refine keyMatch_wordrun d ds rest2 ?_ hsep
        intro c hc
        rcases List.mem_cons.mp hc with e | e
        · subst e; exact digit_isWordChar c hdig
        · exact digit_isWordChar c (hds c e)
  | str s =>
      show keyMatch ('"' :: (((s.toList.map escChar).flatten ++ ['"']) ++
        rest2)) = none
      exact keyMatch_nonword_head '"' _ (by decide) (by decide)
  | arr xs =>
      show keyMatch ('[' :: ((dumpItems xs ++ [']']) ++ rest2)) = none
      exact keyMatch_nonword_head '[' _ (by decide) (by decide)
  | obj ms =>
      show keyMatch ('\x7b' :: ((dumpMembers ms ++ ['\x7d']) ++ rest2)) =
        none
      exact keyMatch_nonword_head '\x7b' _ (by decide) (by decide)

theorem safe_plain (c : Char) (h : safeChar c = true) :
    ¬ c = '\x7d' ∧ ¬ c = ',' ∧ ¬ c = '\x7b' :=
  ⟨(safeChar_facts c h).1, (safeChar_facts c h).2.1,
    (safeChar_facts c h).2.2.1⟩

theorem digit_plain (c : Char) (h : isDigitChar c = true) :
    ¬ c = '\x7d' ∧ ¬ c = ',' ∧ ¬ c = '\x7b' := by
  refine ⟨?_, ?_, ?_⟩ <;> (intro e; subst e; revert h; decide)

theorem sepItems_cons (y : Json) (t : List Json) :
    sepItems (y :: t) = ',' :: ' ' :: (dumpChars y ++ sepItems t) := by
  conv_lhs => unfold sepItems
  simp

theorem sepMembers_cons (k : String) (v : Json)
    (t : List (String × Json)) :
    sepMembers ((k, v) :: t) = ',' :: ' ' ::
      (strChars k ++ (':' :: ' ' :: (dumpChars v ++ sepMembers t))) := by
  conv_lhs => unfold sepMembers
  simp [List.append_assoc]

theorem strChars_safe (k : String)
    (hk : ∀ c ∈ k.toList, safeChar c = true) :
    strChars k = '"' :: (k.toList ++ ['"']) := by
  unfold strChars
  rw [safe_flatten k.toList hk]
  simp

theorem key_colon_clean (k : String)
    (hk : ∀ c ∈ k.toList, safeChar c = true) (T : List Char)
    (h : scansClean T) :
    scansClean (strChars k ++ (':' :: ' ' :: T)) := by
  rw [strChars_safe k hk]
  show scansClean (('"' :: (k.toList ++ ['"'])) ++ (':' :: ' ' :: T))
  refine scansClean_append_plain _ _ ?_ ?_
  · intro c hc
    rcases List.mem_cons.mp hc with e | hc2
    · subst e; exact ⟨by decide, by decide, by decide⟩
    rcases List.mem_append.mp hc2 with h3 | h3
    · exact safe_plain c (hk c h3)
    · rcases List.mem_singleton.mp h3 with rfl
      exact ⟨by decide, by decide, by decide⟩
  · refine scansClean_cons _ _ (by decide) (by decide) (by decide) ?_
    exact scansClean_cons _ _ (by decide) (by decide) (by decide) h

set_option maxHeartbeats 1000000 in
theorem dump_scans (n : Nat) :
    (∀ v, sizeOf v ≤ n → safeJson v = true → ∀ rest, sepOk rest →
      scansClean rest → scansClean (dumpChars v ++ rest)) ∧
    (∀ xs : List Json, sizeOf xs ≤ n → safeItems xs = true →
      ∀ rest, sepOk rest → scansClean rest →
      scansClean (dumpItems xs ++ ']' :: rest)) ∧
    (∀ t : List Json, sizeOf t ≤ n → safeItems t = true →
      ∀ rest, sepOk rest → scansClean rest →
      scansClean (sepItems t ++ ']' :: rest)) ∧
    (∀ ms : List (String × Json), sizeOf ms ≤ n → safeMembers ms = true →
      ∀ rest, sepOk rest → scansClean rest →
      scansClean (dumpMembers ms ++ '\x7d' :: rest) ∧
        keyMatch (dumpMembers ms ++ '\x7d' :: rest) = none) ∧
    (∀ t : List (String × Json), sizeOf t ≤ n → safeMembers t = true →
      ∀ rest, sepOk rest → scansClean rest →
      scansClean (sepMembers t ++ '\x7d' :: rest)) := by
  induction n using Nat.strong_induction_on with
  | _ n ih =>
  refine ⟨?_, ?_, ?_, ?_, ?_⟩
  · intro v hsz hsafe rest hsep hscans
    cases v with
    | null =>
        show scansClean (['n', 'u', 'l', 'l'] ++ rest)
        exact scansClean_append_plain _ _ (by decide) hscans
    | bool b =>
        cases b
        · show scansClean (['f', 'a', 'l', 's', 'e'] ++ rest)
          exact scansClean_append_plain _ _ (by decide) hscans
        · show scansClean (['t', 'r', 'u', 'e'] ++ rest)
          exact scansClean_append_plain _ _ (by decide) hscans
    | num m =>
        obtain ⟨d, ds, hd, hdig, hds, hz⟩ := natChars_shape m.natAbs
        have hA : ∀ c ∈ natChars m.natAbs,
            ¬ c = '\x7d' ∧ ¬ c = ',' ∧ ¬ c = '\x7b' := by
          intro c hc
          rw [hd] at hc
          rcases List.mem_cons.mp hc with e | e
          · subst e; exact digit_plain c hdig
          · exact digit_plain c (hds c e)
        show scansClean (intChars m ++ rest)
        unfold intChars
        split_ifs with hn
        · show scansClean (('-' :: natChars m.natAbs) ++ rest)
          refine scansClean_append_plain _ _ ?_ hscans
          intro c hc
          rcases List.mem_cons.mp hc with e | e
          · subst e; exact ⟨by decide, by decide, by decide⟩
          · exact hA c e
        · exact scansClean_append_plain _ _ hA hscans
    | str s =>
        have hsafe2 : ∀ c ∈ s.toList, safeChar c = true := by
          have h2 : s.toList.all safeChar = true := hsafe
          exact List.all_eq_true.mp h2
        show scansClean (strChars s ++ rest)
        rw [strChars_safe s hsafe2]
        show scansClean (('"' :: (s.toList ++ ['"'])) ++ rest)
        refine scansClean_append_plain _ _ ?_ hscans
        intro c hc
        rcases List.mem_cons.mp hc with e | hc2
        · subst e; exact ⟨by decide, by decide, by decide⟩
        rcases List.mem_append.mp hc2 with h3 | h3
        · exact safe_plain c (hsafe2 c h3)
        · rcases List.mem_singleton.mp h3 with rfl
          exact ⟨by decide, by decide, by decide⟩
    | arr xs =>
        have hspec := Json.arr.sizeOf_spec xs
        show scansClean ('[' :: ((dumpItems xs ++ [']']) ++ rest))
        rw [List.append_assoc, List.singleton_append]
        refine scansClean_cons _ _ (by decide) (by decide) (by decide) ?_
        exact (ih (n - 1) (by omega)).2.1 xs (by omega) hsafe rest hsep
          hscans
    | obj ms =>
        have hspec := Json.obj.sizeOf_spec ms
        obtain ⟨hclean, hkey⟩ := (ih (n - 1) (by omega)).2.2.2.1 ms
          (by omega) hsafe rest hsep hscans
        show scansClean ('\x7b' :: ((dumpMembers ms ++ ['\x7d']) ++ rest))
        rw [List.append_assoc, List.singleton_append]
        exact scansClean_lbrace _ hkey hclean
  · intro xs hsz hsafe rest hsep hscans
    cases xs with
    | nil =>
        show scansClean (']' :: rest)
        exact scansClean_cons _ _ (by decide) (by decide) (by decide)
          hscans
    | cons x t =>
        rw [List.cons.sizeOf_spec] at hsz
        unfold safeItems at hsafe
        rw [Bool.and_eq_true] at hsafe
        rw [dumpItems_eq, List.append_assoc]
        exact (ih (n - 1) (by omega)).1 x (by omega) hsafe.1
          (sepItems t ++ ']' :: rest) (sepOk_items_tail t rest)
          ((ih (n - 1) (by omega)).2.2.1 t (by omega) hsafe.2 rest hsep
            hscans)
  · intro t hsz hsafe rest hsep hscans
    cases t with
    | nil =>
        show scansClean (']' :: rest)
        exact scansClean_cons _ _ (by decide) (by decide) (by decide)
          hscans
    | cons y t =>
        rw [List.cons.sizeOf_spec] at hsz
        unfold safeItems at hsafe
        rw [Bool.and_eq_true] at hsafe
        rw [sepItems_cons, List.cons_append, List.cons_append,
          List.append_assoc]
        refine scansClean_comma _ ?_ ?_ ?_ ?_
        · exact commaMatch_value '\x7d' y _ (by decide) (Or.inl rfl)
        · exact commaMatch_value ']' y _ (by decide) (Or.inr rfl)
        · exact keyMatch_value y _ (sepOk_items_tail t rest)
        · refine scansClean_cons _ _ (by decide) (by decide) (by decide)
            ?_
          exact (ih (n - 1) (by omega)).1 y (by omega) hsafe.1
            (sepItems t ++ ']' :: rest) (sepOk_items_tail t rest)
            ((ih (n - 1) (by omega)).2.2.1 t (by omega) hsafe.2 rest hsep
              hscans)
  · intro ms hsz hsafe rest hsep hscans
    cases ms with
    | nil =>
        constructor
        · show scansClean ('\x7d' :: rest)
          exact scansClean_rbrace _ (glueMatch_sepOk rest hsep) hscans
        · show keyMatch ('\x7d' :: rest) = none
          exact keyMatch_nonword_head '\x7d' _ (by decide) (by decide)
    | cons m t =>
        obtain ⟨k, v⟩ := m
        rw [List.cons.sizeOf_spec, Prod.mk.sizeOf_spec] at hsz
        unfold safeMembers at hsafe
        rw [Bool.and_eq_true, Bool.and_eq_true] at hsafe
        obtain ⟨⟨hk, hv⟩, ht⟩ := hsafe
        have hk2 : ∀ c ∈ k.toList, safeChar c = true :=
          List.all_eq_true.mp hk
        rw [dumpMembers_eq]
        constructor
        · rw [show (strChars k ++ ':' :: ' ' ::
              (dumpChars v ++ sepMembers t)) ++ '\x7d' :: rest =
              strChars k ++ (':' :: ' ' ::
                (dumpChars v ++ (sepMembers t ++ '\x7d' :: rest))) by
            simp [List.append_assoc]]
          refine key_colon_clean k hk2 _ ?_
          exact (ih (n - 1) (by omega)).1 v (by omega) hv
            (sepMembers t ++ '\x7d' :: rest) (sepOk_members_tail t rest)
            ((ih (n - 1) (by omega)).2.2.2.2 t (by omega) ht rest hsep
              hscans)
        · rw [strChars_safe k hk2]
          show keyMatch ('"' :: _) = none
          exact keyMatch_nonword_head '"' _ (by decide) (by decide)
  · intro t hsz hsafe rest hsep hscans
    cases t with
    | nil =>
        show scansClean ('\x7d' :: rest)
        exact scansClean_rbrace _ (glueMatch_sepOk rest hsep) hscans
    | cons m t =>
        obtain ⟨k, v⟩ := m
        rw [List.cons.sizeOf_spec, Prod.mk.sizeOf_spec] at hsz
        unfold safeMembers at hsafe
        rw [Bool.and_eq_true, Bool.and_eq_true] at hsafe
        obtain ⟨⟨hk, hv⟩, ht⟩ := hsafe
        have hk2 : ∀ c ∈ k.toList, safeChar c = true :=
          List.all_eq_true.mp hk
        rw [sepMembers_cons, List.cons_append, List.cons_append]
        refine scansClean_comma _ ?_ ?_ ?_ ?_
        · rw [strChars_safe k hk2]
          rw [commaMatch_space _ _ (by decide)]
          show commaMatch '\x7d' ('"' :: _) = none
          exact commaMatch_stop _ '"' _ (by decide) (by decide)
        · rw [strChars_safe k hk2]
          rw [commaMatch_space _ _ (by decide)]
          show commaMatch ']' ('"' :: _) = none
          exact commaMatch_stop _ '"' _ (by decide) (by decide)
        · apply keyMatch_space_none
          rw [strChars_safe k hk2]
          show keyMatch ('"' :: _) = none
          exact keyMatch_nonword_head '"' _ (by decide) (by decide)
        · refine scansClean_cons _ _ (by decide) (by decide) (by decide)
            ?_
          rw [show (strChars k ++ (':' :: ' ' ::
              (dumpChars v ++ sepMembers t))) ++ '\x7d' :: rest =
              strChars k ++ (':' :: ' ' ::
                (dumpChars v ++ (sepMembers t ++ '\x7d' :: rest))) by
            simp [List.append_assoc]]
          refine key_colon_clean k hk2 _ ?_
          exact (ih (n - 1) (by omega)).1 v (by omega) hv
            (sepMembers t ++ '\x7d' :: rest) (sepOk_members_tail t rest)
            ((ih (n - 1) (by omega)).2.2.2.2 t (by omega) ht rest hsep
              hscans)

theorem digit_out (c : Char) (h : isDigitChar c = true) :
    ¬ c = '\n' ∧ ¬ c = '`' ∧ ¬ c = '"' := by
  refine ⟨?_, ?_, ?_⟩ <;> (intro e; subst e; revert h; decide)

theorem natChars_out (m : Nat) :
    ∀ c ∈ natChars m, ¬ c = '\n' ∧ ¬ c = '`' ∧ ¬ c = '"' := by
  obtain ⟨d, ds, hd, hdig, hds, hz⟩ := natChars_shape m
  intro c hc
  rw [hd] at hc
  rcases List.mem_cons.mp hc with e | e
  · subst e; exact digit_out c hdig
  · exact digit_out c (hds c e)

set_option maxHeartbeats 1000000 in
theorem dump_chars_props (n : Nat) :
    (∀ v, sizeOf v ≤ n → safeJson v = true →
      (∀ c ∈ dumpChars v, ¬ c = '\n' ∧ ¬ c = '`') ∧
      (dumpChars v).count '"' % 2 = 0) ∧
    (∀ xs : List Json, sizeOf xs ≤ n → safeItems xs = true →
      (∀ c ∈ dumpItems xs, ¬ c = '\n' ∧ ¬ c = '`') ∧
      (dumpItems xs).count '"' % 2 = 0) ∧
    (∀ t : List Json, sizeOf t ≤ n → safeItems t = true →
      (∀ c ∈ sepItems t, ¬ c = '\n' ∧ ¬ c = '`') ∧
      (sepItems t).count '"' % 2 = 0) ∧
    (∀ ms : List (String × Json), sizeOf ms ≤ n → safeMembers ms = true →
      (∀ c ∈ dumpMembers ms, ¬ c = '\n' ∧ ¬ c = '`') ∧
      (dumpMembers ms).count '"' % 2 = 0) ∧
    (∀ t : List (String × Json), sizeOf t ≤ n → safeMembers t = true →
      (∀ c ∈ sepMembers t, ¬ c = '\n' ∧ ¬ c = '`') ∧
      (sepMembers t).count '"' % 2 = 0) := by
  induction n using Nat.strong_induction_on with
  | _ n ih =>
  refine ⟨?_, ?_, ?_, ?_, ?_⟩
  · intro v hsz hsafe
    cases v with
    | null => exact ⟨by decide, by decide⟩
    | bool b => cases b <;> exact ⟨by decide, by decide⟩
    | num m =>
        constructor
        · intro c hc
          have hc2 : c ∈ intChars m := hc
          unfold intChars at hc2
          split_ifs at hc2 with hn
          · rcases List.mem_cons.mp hc2 with e | e
            · subst e; exact ⟨by decide, by decide⟩
            · exact ⟨(natChars_out _ c e).1, (natChars_out _ c e).2.1⟩
          · exact ⟨(natChars_out _ c hc2).1,
              (natChars_out _ c hc2).2.1⟩
        · have h0 : (intChars m).count '"' = 0 := by
            rw [List.count_eq_zero]
            intro hmem
            unfold intChars at hmem
            split_ifs at hmem with hn
            · rcases List.mem_cons.mp hmem with e | e
              · exact absurd e.symm (by decide)
              · exact (natChars_out _ _ e).2.2 rfl
            · exact (natChars_out _ _ hmem).2.2 rfl
          show (intChars m).count '"' % 2 = 0
          omega
    | str s =>
        have hsafe2 : ∀ c ∈ s.toList, safeChar c = true := by
          have h2 : s.toList.all safeChar = true := hsafe
          exact List.all_eq_true.mp h2
        have he : dumpChars (Json.str s) = '"' :: (s.toList ++ ['"']) := by
          show strChars s = _
          exact strChars_safe s hsafe2
        rw [he]
        constructor
        · intro c hc
          rcases List.mem_cons.mp hc with e | hc2
          · subst e; exact ⟨by decide, by decide⟩
          rcases List.mem_append.mp hc2 with h3 | h3
          · have hf := safeChar_facts c (hsafe2 c h3)
            exact ⟨hf.2.2.2.2.2.1, hf.2.2.2.2.2.2.1⟩
          · rcases List.mem_singleton.mp h3 with rfl
            exact ⟨by decide, by decide⟩
        · have h0 : List.count '"' s.data = 0 := by
            rw [List.count_eq_zero]
            intro hmem
            exact (safeChar_facts _ (hsafe2 _ hmem)).2.2.2.1 rfl
          simp [List.count_cons, List.count_append, h0]
    | arr xs =>
        have hspec := Json.arr.sizeOf_spec xs
        obtain ⟨hmem, hcnt⟩ := (ih (n - 1) (by omega)).2.1 xs (by omega)
          hsafe
        have he : dumpChars (Json.arr xs) = '[' :: (dumpItems xs ++ [']'])
            := by
          show ('[' :: dumpItems xs) ++ [']'] = _
          simp
        rw [he]
        constructor
        · intro c hc
          rcases List.mem_cons.mp hc with e | hc2
          · subst e; exact ⟨by decide, by decide⟩
          rcases List.mem_append.mp hc2 with h3 | h3
          · exact hmem c h3
          · rcases List.mem_singleton.mp h3 with rfl
            exact ⟨by decide, by decide⟩
        · simp [List.count_cons, List.count_append]
          omega
    | obj ms =>
        have hspec := Json.obj.sizeOf_spec ms
        obtain ⟨hmem, hcnt⟩ := (ih (n - 1) (by omega)).2.2.2.1 ms
          (by omega) hsafe
        have he : dumpChars (Json.obj ms) =
            '\x7b' :: (dumpMembers ms ++ ['\x7d']) := by
          show ('\x7b' :: dumpMembers ms) ++ ['\x7d'] = _
          simp
        rw [he]
        constructor
        · intro c hc
          rcases List.mem_cons.mp hc with e | hc2
          · subst e; exact ⟨by decide, by decide⟩
          rcases List.mem_append.mp hc2 with h3 | h3
          · exact hmem c h3
          · rcases List.mem_singleton.mp h3 with rfl
            exact ⟨by decide, by decide⟩
        · simp [List.count_cons, List.count_append]
          omega
  · intro xs hsz hsafe
    cases xs with
    | nil => exact ⟨by simp [dumpItems], by simp [dumpItems]⟩
    | cons x t =>
        rw [List.cons.sizeOf_spec] at hsz
        unfold safeItems at hsafe
        rw [Bool.and_eq_true] at hsafe
        obtain ⟨hm1, hc1⟩ := (ih (n - 1) (by omega)).1 x (by omega) hsafe.1
        obtain ⟨hm2, hc2⟩ := (ih (n - 1) (by omega)).2.2.1 t (by omega)
          hsafe.2
        rw [dumpItems_eq]
        constructor
        · intro c hc
          rcases List.mem_append.mp hc with h3 | h3
          · exact hm1 c h3
          · exact hm2 c h3
        · rw [List.count_append]
          omega
  · intro t hsz hsafe
    cases t with
    | nil => exact ⟨by simp [sepItems], by simp [sepItems]⟩
    | cons y t =>
        rw [List.cons.sizeOf_spec] at hsz
        unfold safeItems at hsafe
        rw [Bool.and_eq_true] at hsafe
        obtain ⟨hm1, hc1⟩ := (ih (n - 1) (by omega)).1 y (by omega) hsafe.1
        obtain ⟨hm2, hc2⟩ := (ih (n - 1) (by omega)).2.2.1 t (by omega)
          hsafe.2
        rw [sepItems_cons]
        constructor
        · intro c hc
          rcases List.mem_cons.mp hc with e | hc2
          · subst e; exact ⟨by decide, by decide⟩
          rcases List.mem_cons.mp hc2 with e | hc3
          · subst e; exact ⟨by decide, by decide⟩
          rcases List.mem_append.mp hc3 with h3 | h3
          · exact hm1 c h3
          · exact hm2 c h3
        · simp [List.count_cons, List.count_append]
          omega
  · intro ms hsz hsafe
    cases ms with
    | nil => exact ⟨by simp [dumpMembers], by simp [dumpMembers]⟩
    | cons m t =>
        obtain ⟨k, v⟩ := m
        rw [List.cons.sizeOf_spec, Prod.mk.sizeOf_spec] at hsz
        unfold safeMembers at hsafe
        rw [Bool.and_eq_true, Bool.and_eq_true] at hsafe
        obtain ⟨⟨hk, hv⟩, ht⟩ := hsafe
        have hk2 : ∀ c ∈ k.toList, safeChar c = true :=
          List.all_eq_true.mp hk
        obtain ⟨hm1, hc1⟩ := (ih (n - 1) (by omega)).1 v (by omega) hv
        obtain ⟨hm2, hc2⟩ := (ih (n - 1) (by omega)).2.2.2.2 t (by omega)
          ht
        rw [dumpMembers_eq, strChars_safe k hk2]
        have h0 : List.count '"' k.data = 0 := by
          rw [List.count_eq_zero]
          intro hmem
          exact (safeChar_facts _ (hk2 _ hmem)).2.2.2.1 rfl
        constructor
        · intro c hc
          rcases List.mem_append.mp hc with h3 | h3
          · rcases List.mem_cons.mp h3 with e | hc2
            · subst e; exact ⟨by decide, by decide⟩
            rcases List.mem_append.mp hc2 with h4 | h4
            · have hf := safeChar_facts c (hk2 c h4)
              exact ⟨hf.2.2.2.2.2.1, hf.2.2.2.2.2.2.1⟩
            · rcases List.mem_singleton.mp h4 with rfl
              exact ⟨by decide, by decide⟩
          rcases List.mem_cons.mp h3 with e | hc2
          · subst e; exact ⟨by decide, by decide⟩
          rcases List.mem_cons.mp hc2 with e | hc3
          · subst e; exact ⟨by decide, by decide⟩
          rcases List.mem_append.mp hc3 with h4 | h4
          · exact hm1 c h4
          · exact hm2 c h4
        · simp [List.count_cons, List.count_append, h0]
          omega
  · intro t hsz hsafe
    cases t with
    | nil => exact ⟨by simp [sepMembers], by simp [sepMembers]⟩
    | cons m t =>
        obtain ⟨k, v⟩ := m
        rw [List.cons.sizeOf_spec, Prod.mk.sizeOf_spec] at hsz
        unfold safeMembers at hsafe
        rw [Bool.and_eq_true, Bool.and_eq_true] at hsafe
        obtain ⟨⟨hk, hv⟩, ht⟩ := hsafe
        have hk2 : ∀ c ∈ k.toList, safeChar c = true :=
          List.all_eq_true.mp hk
        obtain ⟨hm1, hc1⟩ := (ih (n - 1) (by omega)).1 v (by omega) hv
        obtain ⟨hm2, hc2⟩ := (ih (n - 1) (by omega)).2.2.2.2 t (by omega)
          ht
        rw [sepMembers_cons, strChars_safe k hk2]
        have h0 : List.count '"' k.data = 0 := by
          rw [List.count_eq_zero]
          intro hmem
          exact (safeChar_facts _ (hk2 _ hmem)).2.2.2.1 rfl
        constructor
        · intro c hc
          rcases List.mem_cons.mp hc with e | hc2
          · subst e; exact ⟨by decide, by decide⟩
          rcases List.mem_cons.mp hc2 with e | hc3
          · subst e; exact ⟨by decide, by decide⟩
          rcases List.mem_append.mp hc3 with h3 | h3
          · rcases List.mem_cons.mp h3 with e | hc4
            · subst e; exact ⟨by decide, by decide⟩
            rcases List.mem_append.mp hc4 with h4 | h4
            · have hf := safeChar_facts c (hk2 c h4)
              exact ⟨hf.2.2.2.2.2.1, hf.2.2.2.2.2.2.1⟩
            · rcases List.mem_singleton.mp h4 with rfl
              exact ⟨by decide, by decide⟩
          rcases List.mem_cons.mp h3 with e | hc4
          · subst e; exact ⟨by decide, by decide⟩
          rcases List.mem_cons.mp hc4 with e | hc5
          · subst e; exact ⟨by decide, by decide⟩
          rcases List.mem_append.mp hc5 with h4 | h4
          · exact hm1 c h4
          · exact hm2 c h4
        · simp [List.count_cons, List.count_append, h0]
          omega

theorem splitAtSub_openFence (X : List Char) :
    splitAtSub "```json".toList ("```json".toList ++ X) = some ([], X) := by
  show splitAtSub "```json".toList
    ('`' :: '`' :: '`' :: 'j' :: 's' :: 'o' :: 'n' :: X) = some ([], X)
  conv_lhs => unfold splitAtSub
  rw [if_pos (by simp [List.isPrefixOf])]
  rfl

theorem splitAtSub_noTick (Y : List Char) : ∀ X, (∀ c ∈ X, ¬ c = '`') →
    splitAtSub "```".toList (X ++ '`' :: '`' :: '`' :: Y) = some (X, Y) := by
  intro X
  induction X with
  | nil =>
      intro _
      show splitAtSub "```".toList ('`' :: '`' :: '`' :: Y) = some ([], Y)
      conv_lhs => unfold splitAtSub
      rw [if_pos (by simp [List.isPrefixOf])]
      rfl
  | cons c T ih =>
      intro h
      have hc : ¬ c = '`' := h c (List.mem_cons_self c T)
      rw [List.cons_append, splitAtSub]
      rw [if_neg (show ¬ ("```".toList.isPrefixOf
          (c :: (T ++ '`' :: '`' :: '`' :: Y))) = true by
        simp [List.isPrefixOf]
        intro e
        exact absurd e.symm hc)]
      rw [ih (fun x hx => h x (List.mem_cons_of_mem c hx))]
      rfl

theorem trimPy_obj (A : List Char) :
    trimPy (('\x7b' :: A) ++ ['\x7d']) = ('\x7b' :: A) ++ ['\x7d'] := by
  unfold trimPy
  rw [List.cons_append, List.dropWhile_cons, if_neg (by decide)]
  rw [show ('\x7b' :: (A ++ ['\x7d'])).reverse =
    '\x7d' :: (A.reverse ++ ['\x7b']) by simp]
  rw [List.dropWhile_cons, if_neg (by decide)]
  simp

theorem trimPy_wrap (A : List Char) :
    trimPy ('\n' :: ((('\x7b' :: A) ++ ['\x7d']) ++ ['\n'])) =
      ('\x7b' :: A) ++ ['\x7d'] := by
  unfold trimPy
  rw [List.dropWhile_cons, if_pos (by decide)]
  rw [List.cons_append, List.cons_append, List.dropWhile_cons,
    if_neg (by decide)]
  rw [show ('\x7b' :: ((A ++ ['\x7d']) ++ ['\n'])).reverse =
    '\n' :: ('\x7d' :: (A.reverse ++ ['\x7b'])) by simp]
  rw [List.dropWhile_cons, if_pos (by decide)]
  rw [List.dropWhile_cons, if_neg (by decide)]
  simp

theorem splitLines_no_nl (l : List Char) (h : ∀ c ∈ l, ¬ c = '\n') :
    splitLines l = [l] := by
  induction l with
  | nil => rfl
  | cons c t ih =>
      rw [splitLines]
      rw [ih (fun x hx => h x (List.mem_cons_of_mem c hx))]
      rw [if_neg (h c (List.mem_cons_self c t))]

theorem dumpChars_obj (ms : List (String × Json)) :
    dumpChars (Json.obj ms) = ('\x7b' :: dumpMembers ms) ++ ['\x7d'] := by
  conv_lhs => unfold dumpChars

theorem fence_json_wrap (D : List Char) (hD : ∀ c ∈ D, ¬ c = '`') :
    fence_json ("```json".toList ++
      ('\n' :: (D ++ ('\n' :: '`' :: '`' :: '`' :: ([] : List Char))))) =
      some (trimPy ('\n' :: (D ++ ['\n']))) := by
  unfold fence_json
  rw [splitAtSub_openFence]
  rw [show ('\n' :: (D ++ ('\n' :: '`' :: '`' :: '`' :: ([] : List Char))))
      = ('\n' :: (D ++ ['\n'])) ++ '`' :: '`' :: '`' :: ([] : List Char) by
    simp]
  rw [Option.some_bind]
  rw [splitAtSub_noTick [] ('\n' :: (D ++ ['\n'])) (by
    intro c hc
    rcases List.mem_cons.mp hc with e | hc2
    · subst e; decide
    rcases List.mem_append.mp hc2 with h3 | h3
    · exact hD c h3
    · rcases List.mem_singleton.mp h3 with rfl
      decide)]
  rfl

theorem extract_fence (ms : List (String × Json))
    (hTick : ∀ c ∈ dumpChars (Json.obj ms), ¬ c = '`') :
    extract_json_str ("```json\n" ++ json_dumps (Json.obj ms) ++ "\n```") =
      json_dumps (Json.obj ms) := by
  have he : ("```json\n" ++ json_dumps (Json.obj ms) ++ "\n```").toList =
      "```json".toList ++
        ('\n' :: (dumpChars (Json.obj ms) ++
          ('\n' :: '`' :: '`' :: '`' :: ([] : List Char)))) := by
    show "```json\n".toList ++
      (dumpChars (Json.obj ms) ++ "\n```".toList) = _
    simp [json_dumps]
  unfold extract_json_str
  rw [he, fence_json_wrap _ hTick]
  rw [dumpChars_obj, trimPy_wrap]
  show pyStrip (String.mk (('\x7b' :: dumpMembers ms) ++ ['\x7d'])) = _
  unfold pyStrip
  rw [show (String.mk (('\x7b' :: dumpMembers ms) ++ ['\x7d'])).toList =
    ('\x7b' :: dumpMembers ms) ++ ['\x7d'] from rfl]
  rw [trimPy_obj]
  rw [json_dumps, dumpChars_obj]

theorem scansClean_dump (ms : List (String × Json))
    (h : safeMembers ms = true) :
    scansClean (dumpChars (Json.obj ms)) := by
  have h2 := (dump_scans (sizeOf (Json.obj ms))).1 (Json.obj ms)
    (le_refl _) h [] trivial scansClean_nil
  simpa using h2

theorem dump_chars_obj (ms : List (String × Json))
    (h : safeMembers ms = true) :
    (∀ c ∈ dumpChars (Json.obj ms), ¬ c = '\n' ∧ ¬ c = '`') ∧
      (dumpChars (Json.obj ms)).count '"' % 2 = 0 :=
  (dump_chars_props (sizeOf (Json.obj ms))).1 (Json.obj ms) (le_refl _) h

theorem fix_json_string_safe (ms : List (String × Json))
    (h : safeMembers ms = true) :
    fix_json_string (json_dumps (Json.obj ms)) =
      json_dumps (Json.obj ms) := by
  obtain ⟨hmem, hcnt⟩ := dump_chars_obj ms h
  have hscans := scansClean_dump ms h
  unfold fix_json_string
  dsimp only
  rw [show (json_dumps (Json.obj ms)).toList = dumpChars (Json.obj ms)
    from rfl]
  rw [show (dumpChars (Json.obj ms)).dropWhile
      (fun c => ¬ c = '\x7b') = dumpChars (Json.obj ms) by
    rw [dumpChars_obj, List.cons_append, List.dropWhile_cons]
    rw [if_neg (by simp)]]
  rw [show ((dumpChars (Json.obj ms)).reverse.dropWhile
      (fun c => ¬ c = '\x7d')).reverse = dumpChars (Json.obj ms) by
    rw [dumpChars_obj]
    rw [show (('\x7b' :: dumpMembers ms) ++ ['\x7d']).reverse =
      '\x7d' :: ('\x7b' :: dumpMembers ms).reverse by simp]
    rw [List.dropWhile_cons, if_neg (by simp)]
    simp]
  rw [splitLines_no_nl _ (fun c hc => (hmem c hc).1)]
  rw [List.map_singleton]
  rw [show fixLine (dumpChars (Json.obj ms)) = dumpChars (Json.obj ms) by
    unfold fixLine
    rw [if_neg (by omega)]]
  rw [show joinLines [dumpChars (Json.obj ms)] =
    dumpChars (Json.obj ms) from rfl]
  obtain ⟨s1, s2, s3, s4⟩ := hscans
  unfold sub_brace_glue
  rw [sub_brace_glue_fuel_id _ _ s1]
  unfold sub_trailing_comma
  rw [sub_trailing_comma_fuel_id _ _ _ s2]
  rw [sub_trailing_comma_fuel_id _ _ _ s3]
  unfold sub_quote_keys
  rw [sub_quote_keys_fuel_id _ _ s4]
  rfl

/-- C6: the extraction-and-light-repair chain recovers the serialized
object byte-for-byte for every fenced `json.dumps` object whose keys and
string values consist of safe characters (printable ASCII other than
quote, backslash, braces, brackets, colon, comma and backtick); on such
input every light repair is the identity. -/
theorem fence_fix_roundtrip (ms : List (String × Json))
    (h : safeMembers ms = true) :
    fix_json_string (extract_json_str
      ("```json\n" ++ json_dumps (Json.obj ms) ++ "\n```")) =
      json_dumps (Json.obj ms) := by
  rw [extract_fence ms (fun c hc => ((dump_chars_obj ms h).1 c hc).2),
    fix_json_string_safe ms h]

theorem fence_fix_roundtrip_witness :
    safeMembers [("a", Json.str "x")] = true ∧
      fix_json_string (extract_json_str ("```json\n" ++
        json_dumps (Json.obj [("a", Json.str "x")]) ++ "\n```")) =
        json_dumps (Json.obj [("a", Json.str "x")]) :=
  ⟨by decide, fence_fix_roundtrip [("a", Json.str "x")] (by decide)⟩

set_option maxRecDepth 40000 in
/-- C6 counterexample: on the valid fenced object whose string value
contains a comma followed by a word and a colon, the unquoted-key
substitution of `fix_json_string` fires inside the string literal, so the
chain is not the identity on this already-valid JSON and its output is no
longer accepted by `json.loads`. -/
theorem fix_json_string_corrupts_unsafe_string :
    is_valid_json (json_dumps
        (Json.obj [("a", Json.str "x, b: y")])) = true ∧
      fix_json_string (extract_json_str ("```json\n" ++
          json_dumps (Json.obj [("a", Json.str "x, b: y")]) ++ "\n```")) =
        "\x7b\"a\": \"x, \"b\": y\"\x7d" ∧
      is_valid_json (fix_json_string (extract_json_str ("```json\n" ++
          json_dumps (Json.obj [("a", Json.str "x, b: y")]) ++ "\n```"))) =
        false := by
  refine ⟨by decide, by decide, by decide⟩

/-- C3 witness: the monotonicity part applied at a concrete pair of
inputs. -/
theorem engagement_score_monotone_witness :
    (0 : ℚ) ≤ 2000 ∧ (0 : ℚ) ≤ 200 ∧
    calculate_engagement_potential 0 0 ≤
      calculate_engagement_potential 2000 200 :=
  ⟨by norm_num, by norm_num,
    engagement_score_monotone_and_bounds.1 0 2000 0 200
      (by norm_num) (by norm_num)⟩

end Scoop
